import Mathlib

/-!
# The `logger` dispatcher (`src/logger.go`)

A shallow embedding of the multi-provider logging facade and the properties of
its registry, its subscription lists, its level gate and its message formatter.

Modelling conventions.

* A Go `string` that is only stored and compared (provider IDs, the severity
  type tag of `addProvider`) is a Lean `String`.  Text that is assembled byte
  by byte (`[]byte` messages, the operands of the formatter) is a `List Char`.
  The two characters the formatter treats specially, carriage return (13) and
  line feed (10), are single bytes in UTF-8 and occur in no multi-byte
  sequence, so acting on characters and acting on bytes agree.
* The registry `map[string]*ProviderInterface` is only ever indexed and
  assigned, never iterated: it is a function from keys to optional providers.
* A provider is an external object.  It is represented by its identity and by
  the string its `GetID()` reports; what it does with a message is recorded as
  an event.  The registry holds pointers, so an object may come to report
  another ID while it is registered: that is the step `ChangeID`.  Providers
  are assumed not to call back into the dispatcher.
* Everything the formatter reads from the process (clock, program name, host
  name resolver, `fmt`) is collected in a `World`; the package variable `HOST`
  and the call stack are passed explicitly.
-/

namespace GoLogger

/-! ## Constants -/

/-- The level `LEVEL_ERROR` (`iota` = 0). -/
def LEVEL_ERROR : Int := 0

/-- The level `LEVEL_INFO` (`iota` = 1). -/
def LEVEL_INFO : Int := 1

/-- The level `LEVEL_DEBUG` (`iota` = 2). -/
def LEVEL_DEBUG : Int := 2

/-! ## Providers and the dispatcher state -/

/-- An object behind `ProviderInterface`: `name` is the identity of the object,
`id` is the string its `GetID()` returns. -/
structure Provider where
  name : Nat
  id : String
deriving DecidableEq, Repr

/-- The four receive operations of `ProviderInterface`. -/
inductive Op where
  | Log
  | Error
  | Fatal
  | Debug
deriving DecidableEq, Repr

/-- The struct `Logger`. -/
structure Logger where
  providers : String → Option Provider
  logProviders : List String
  errorProviders : List String
  fatalProviders : List String
  debugProviders : List String
  level : Int

/-- The constructor `NewLogger`: an empty registry, nil slices, level 0. -/
def NewLogger : Logger :=
  { providers := fun _ => none
    logProviders := []
    errorProviders := []
    fatalProviders := []
    debugProviders := []
    level := 0 }

/-- The method `SetLevel`. -/
def SetLevel (l : Logger) (level : Int) : Logger :=
  { l with level := level }

/-- The method `RegisterProvider`: `l.providers[p.GetID()] = &p`. -/
def RegisterProvider (l : Logger) (p : Provider) : Logger :=
  { l with providers := fun k => if k = p.id then some p else l.providers k }

/-- Not a method of the dispatcher: the provider object `name` starts to report
`id` from its `GetID()`.  The registry keeps it under the key it was registered
with. -/
def ChangeID (l : Logger) (name : Nat) (id : String) : Logger :=
  { l with
    providers := fun k =>
      (l.providers k).map (fun p => if p.name = name then { p with id := id } else p) }

/-- The closure `alreadyRegistred` of `addProvider`. -/
def alreadyRegistred (id : String) : List String → Bool
  | [] => false
  | val :: rest => if val = id then true else alreadyRegistred id rest

/-- The `for _, id := range providersIDs` loop of `addProvider`, acting on the
slice `*IDs`. -/
def addLoop (providers : String → Option Provider) : List String → List String → List String
  | IDs, [] => IDs
  | IDs, id :: rest =>
    match providers id with
    | some provider =>
      let pID := provider.id
      if !alreadyRegistred pID IDs then addLoop providers (IDs ++ [pID]) rest
      else addLoop providers IDs rest
    | none => addLoop providers IDs rest

/-- The place the pointer `IDs` of `addProvider` points to: one of the four
slice fields of the dispatcher. -/
inductive Field where
  | debugProviders
  | logProviders
  | errorProviders
  | fatalProviders
deriving DecidableEq, Repr

/-- Reading through the pointer `IDs`: `*IDs`. -/
def Logger.get (l : Logger) : Field → List String
  | .debugProviders => l.debugProviders
  | .logProviders => l.logProviders
  | .errorProviders => l.errorProviders
  | .fatalProviders => l.fatalProviders

/-- Writing through the pointer `IDs`: `*IDs = v`. -/
def Logger.set (l : Logger) (f : Field) (v : List String) : Logger :=
  match f with
  | .debugProviders => { l with debugProviders := v }
  | .logProviders => { l with logProviders := v }
  | .errorProviders => { l with errorProviders := v }
  | .fatalProviders => { l with fatalProviders := v }

/-- The `switch providerType` of `addProvider`; `none` is the `default` branch. -/
def selectField (providerType : String) : Option Field :=
  if providerType = "debug" then some .debugProviders
  else if providerType = "log" then some .logProviders
  else if providerType = "error" then some .errorProviders
  else if providerType = "fatal" then some .fatalProviders
  else none

/-- A panic: the value passed to `panic` and the dispatcher state at that
moment. -/
structure Panic where
  value : String
  state : Logger

/-- The method `addProvider`. -/
def addProvider (l : Logger) (providerType : String) (providersIDs : List String) :
    Except Panic Logger :=
  match selectField providerType with
  | none => .error { value := "Wrong type of the provider.", state := l }
  | some IDs => .ok (l.set IDs (addLoop l.providers (l.get IDs) providersIDs))

/-- The method `AddLogProvider`. -/
def AddLogProvider (l : Logger) (provIDs : List String) : Except Panic Logger :=
  addProvider l "log" provIDs

/-- The method `AddErrorProvider`. -/
def AddErrorProvider (l : Logger) (provIDs : List String) : Except Panic Logger :=
  addProvider l "error" provIDs

/-- The method `AddFatalProvider`. -/
def AddFatalProvider (l : Logger) (provIDs : List String) : Except Panic Logger :=
  addProvider l "fatal" provIDs

/-- The method `AddDebugProvider`. -/
def AddDebugProvider (l : Logger) (provIDs : List String) : Except Panic Logger :=
  addProvider l "debug" provIDs

/-- One step in the life of a dispatcher: a call of one of its configuration
methods, or a provider object changing the ID it reports. -/
inductive Action where
  | RegisterProvider (p : Provider)
  | SetLevel (level : Int)
  | AddLogProvider (provIDs : List String)
  | AddErrorProvider (provIDs : List String)
  | AddFatalProvider (provIDs : List String)
  | AddDebugProvider (provIDs : List String)
  | ChangeID (name : Nat) (id : String)
deriving DecidableEq, Repr

/-- Whether the step is a `SetLevel`. -/
def Action.isSetLevel : Action → Bool
  | .SetLevel _ => true
  | _ => false

/-- Whether the step is a provider changing the ID it reports. -/
def Action.isChangeID : Action → Bool
  | .ChangeID _ _ => true
  | _ => false

/-- Performing one step. -/
def step (l : Logger) : Action → Except Panic Logger
  | .RegisterProvider p => .ok (RegisterProvider l p)
  | .SetLevel level => .ok (SetLevel l level)
  | .AddLogProvider provIDs => AddLogProvider l provIDs
  | .AddErrorProvider provIDs => AddErrorProvider l provIDs
  | .AddFatalProvider provIDs => AddFatalProvider l provIDs
  | .AddDebugProvider provIDs => AddDebugProvider l provIDs
  | .ChangeID name id => .ok (ChangeID l name id)

/-- Performing a sequence of steps, first step first; a panic ends the
sequence. -/
def run (l : Logger) : List Action → Except Panic Logger
  | [] => .ok l
  | a :: rest =>
    match step l a with
    | .ok l' => run l' rest
    | .error e => .error e

/-! ## The message formatter -/

/-- An operand of a logging call (`interface{}`): a string, an integer, or any
other value, given by the text `fmt.Fprint` writes for it. -/
inductive Value where
  | str (s : List Char)
  | int (n : Int)
  | other (text : List Char)
deriving DecidableEq, Repr

/-- The text `fmt.Fprint(msg, v)` writes for the single operand `v`. -/
def Fprint : Value → List Char
  | .str s => s
  | .int (.ofNat n) => Nat.toDigits 10 n
  | .int (.negSucc n) => '-' :: Nat.toDigits 10 (n + 1)
  | .other text => text

/-- A caller frame as `runtime.Caller` reports it: the file, already cut to its
last path element as `log.Lshortfile` prints it, and the line. -/
structure Frame where
  file : List Char
  line : Nat
deriving DecidableEq, Repr

/-- A position in `logger.go`. -/
def here (line : Nat) : Frame :=
  { file := "logger.go".toList, line := line }

/-- What a logging call reads from the process it runs in. -/
structure World where
  /-- The value of `time.Now().Format(time.RFC3339)`. -/
  now : List Char
  /-- The value of `path.Base(os.Args[0])`. -/
  prog : List Char
  /-- The string returned by `os.Hostname()`, empty when it fails. -/
  hostname : List Char
  /-- The function `fmt.Sprintf`. -/
  sprintf : List Char → List Value → List Char

/-- What a logging call does to the outside. -/
inductive Event where
  | hostname
  | receive (p : Provider) (op : Op) (msg : List Char)
  | exit (code : Int)
deriving DecidableEq, Repr

/-- The replacer `strings.NewReplacer(old1, new1, old2, new2, ...)` for
one-byte `old` strings: every byte that is an `old` is replaced by the `new`
of the first pair with that `old`, every other byte is kept. -/
def NewReplacer (pairs : List (Char × List Char)) : List Char → List Char
  | [] => []
  | c :: rest =>
    match pairs.lookup c with
    | some r => r ++ NewReplacer pairs rest
    | none => c :: NewReplacer pairs rest

/-- The package variable `MESSAGE_REPLACER`. -/
def MESSAGE_REPLACER : List Char → List Char :=
  NewReplacer [('\r', []), ('\n', ['\t'])]

/-- The package variable `MESSAGE_SEPARATOR`. -/
def MESSAGE_SEPARATOR : List Char := [' ']

/-- The loop `for i, v := range err` of `makeMessage`, acting on the buffer
`msg`. -/
def writeParts (msg : List Char) (i : Nat) : List Value → List Char
  | [] => msg
  | v :: rest =>
    writeParts ((if i > 0 then msg ++ MESSAGE_SEPARATOR else msg) ++ Fprint v) (i + 1) rest

/-- The call `runtime.Caller(calldepth)` made inside `(*log.Logger).Output`,
for `calldepth ≥ 1`; `stack` holds the frames of the callers of `Output`,
innermost first, so that depth 1 is the caller of `Output`, depth 2 the caller
of that caller, and so on.  The dispatcher only asks for depth 3. -/
def Caller (stack : List Frame) (calldepth : Nat) : Option Frame :=
  stack.get? (calldepth - 1)

/-- The line `(*log.Logger).Output(calldepth, s)` writes for a logger made by
`log.New(buf, pfx, log.Lshortfile)`: the prefix, `file:line: `, the text, and a
line feed unless the text already ends in one. -/
def Output (pfx : List Char) (stack : List Frame) (calldepth : Nat) (s : List Char) :
    List Char :=
  let frame := (Caller stack calldepth).getD { file := "???".toList, line := 0 }
  pfx ++ frame.file ++ [':'] ++ Nat.toDigits 10 frame.line ++ [':', ' '] ++ s ++
    (if s.getLast? = some '\n' then [] else ['\n'])

/-- The call `bytes.Replace(b, []byte("\n"), []byte{}, -1)`. -/
def stripNewlines (b : List Char) : List Char :=
  b.filter (fun c => c != '\n')

/-- The result of `makeMessage`: the returned bytes, the package variable
`HOST` afterwards, and the calls of `os.Hostname()` it made. -/
structure Made where
  msg : List Char
  HOST : List Char
  events : List Event
deriving DecidableEq, Repr

/-- The function `makeMessage`; `stack` holds the frames of its callers,
innermost first. -/
def makeMessage (W : World) (HOST : List Char) (stack : List Frame) (typeLog : List Char)
    (err : List Value) : Made :=
  let resolve := HOST.length = 0
  let HOST := if resolve then W.hostname else HOST
  let pfx := typeLog ++ ": ".toList ++ W.now ++ " ".toList ++ W.prog ++ " ".toList ++ HOST
    ++ " ".toList
  let msg := writeParts [] 0 err
  let buf := Output pfx (here 201 :: stack) 3 (MESSAGE_REPLACER msg)
  { msg := stripNewlines buf
    HOST := HOST
    events := if resolve then [Event.hostname] else [] }

/-! ## The logging calls -/

/-- What a logging call leaves behind: the package variable `HOST` and the
events it caused, in order. -/
structure Effect where
  HOST : List Char
  events : List Event
deriving DecidableEq, Repr

/-- The loop `for _, pID := range ids` shared by `Log`, `Error`, `Debug` and
`Fatal`, which differ in the operation `op` they invoke. -/
def dispatch (providers : String → Option Provider) (op : Op) (msg : List Char) :
    List String → List Event
  | [] => []
  | pID :: rest =>
    match providers pID with
    | some p => Event.receive p op msg :: dispatch providers op msg rest
    | none => dispatch providers op msg rest

/-- The method `Log`; `callers` holds the frames of its callers, innermost
first. -/
def Log (l : Logger) (W : World) (HOST : List Char) (callers : List Frame)
    (messageParts : List Value) : Effect :=
  if l.level < LEVEL_INFO then { HOST := HOST, events := [] }
  else
    let m := makeMessage W HOST (here 115 :: callers) "LOG".toList messageParts
    { HOST := m.HOST, events := m.events ++ dispatch l.providers Op.Log m.msg l.logProviders }

/-- The method `Logf`. -/
def Logf (l : Logger) (W : World) (HOST : List Char) (callers : List Frame)
    (format : List Char) (params : List Value) : Effect :=
  if l.level < LEVEL_INFO then { HOST := HOST, events := [] }
  else Log l W HOST (here 108 :: callers) [Value.str (W.sprintf format params)]

/-- The method `Error`. -/
def Error (l : Logger) (W : World) (HOST : List Char) (callers : List Frame)
    (messageParts : List Value) : Effect :=
  let m := makeMessage W HOST (here 130 :: callers) "ERROR".toList messageParts
  { HOST := m.HOST, events := m.events ++ dispatch l.providers Op.Error m.msg l.errorProviders }

/-- The method `Errorf`. -/
def Errorf (l : Logger) (W : World) (HOST : List Char) (callers : List Frame)
    (format : List Char) (params : List Value) : Effect :=
  Error l W HOST (here 125 :: callers) [Value.str (W.sprintf format params)]

/-- The method `Debug`. -/
def Debug (l : Logger) (W : World) (HOST : List Char) (callers : List Frame)
    (messageParts : List Value) : Effect :=
  if l.level < LEVEL_DEBUG then { HOST := HOST, events := [] }
  else
    let m := makeMessage W HOST (here 152 :: callers) "DEBUG".toList messageParts
    { HOST := m.HOST
      events := m.events ++ dispatch l.providers Op.Debug m.msg l.debugProviders }

/-- The method `Debugf`. -/
def Debugf (l : Logger) (W : World) (HOST : List Char) (callers : List Frame)
    (format : List Char) (params : List Value) : Effect :=
  if l.level < LEVEL_DEBUG then { HOST := HOST, events := [] }
  else Debug l W HOST (here 144 :: callers) [Value.str (W.sprintf format params)]

/-- The method `Fatal`; the process ends with `os.Exit(1)`. -/
def Fatal (l : Logger) (W : World) (HOST : List Char) (callers : List Frame)
    (messageParts : List Value) : Effect :=
  let m := makeMessage W HOST (here 166 :: callers) "FATAL".toList messageParts
  { HOST := m.HOST
    events := m.events ++ dispatch l.providers Op.Fatal m.msg l.fatalProviders
      ++ [Event.exit 1] }

/-- The method `Fatalf`. -/
def Fatalf (l : Logger) (W : World) (HOST : List Char) (callers : List Frame)
    (format : List Char) (params : List Value) : Effect :=
  Fatal l W HOST (here 162 :: callers) [Value.str (W.sprintf format params)]

/-- The provider invocations among the events, in order. -/
def receives : List Event → List (Provider × Op × List Char)
  | [] => []
  | Event.receive p op msg :: rest => (p, op, msg) :: receives rest
  | _ :: rest => receives rest

/-! ## Notions used in the statements -/

/-- The public subscription method whose target is the given field. -/
def AddProviderOf : Field → Logger → List String → Except Panic Logger
  | .debugProviders => AddDebugProvider
  | .logProviders => AddLogProvider
  | .errorProviders => AddErrorProvider
  | .fatalProviders => AddFatalProvider

/-- Every registered provider reports the ID it is registered under. -/
def StableIDs (l : Logger) : Prop :=
  ∀ k p, l.providers k = some p → p.id = k

/-- The elements of a list, each kept at its first occurrence only. -/
def firstOccurrences : List String → List String
  | [] => []
  | x :: xs => x :: (firstOccurrences xs).filter (fun y => y != x)

/-- The IDs a subscription call is described to append: the elements of `ids`
that are registry keys and are not in the old list, each once, in the order of
their first occurrence. -/
def newSubscribers (providers : String → Option Provider) (old ids : List String) :
    List String :=
  firstOccurrences (ids.filter (fun k => (providers k).isSome && decide (k ∉ old)))

/-- Subscribing the ID of `p` to the list `f` first and registering `p`
afterwards. -/
def subscribeThenRegister (f : Field) (l : Logger) (p : Provider) : Except Panic Logger :=
  (AddProviderOf f l [p.id]).map (fun l1 => RegisterProvider l1 p)

/-- Registering `p` first and subscribing its ID to the list `f` afterwards. -/
def registerThenSubscribe (f : Field) (l : Logger) (p : Provider) : Except Panic Logger :=
  AddProviderOf f (RegisterProvider l p) [p.id]

/-- Every ID in a subscription list is a key of the registry. -/
def SubscribersRegistered (l : Logger) : Prop :=
  ∀ f, ∀ id ∈ l.get f, ∃ p, l.providers id = some p

/-- The level a given level acts as: levels below `LEVEL_ERROR` and above
`LEVEL_DEBUG` are brought to the nearest defined level. -/
def clampLevel (level : Int) : Int :=
  max LEVEL_ERROR (min LEVEL_DEBUG level)

/-- The operands rendered as `fmt.Fprint` renders them and joined by single
spaces. -/
def spaceJoined (parts : List Value) : List Char :=
  List.intercalate [' '] (parts.map Fprint)

/-- The sanitiser as the specification words it: every carriage return and
every line feed becomes one tab, every other character is kept. -/
def tabForLineBreaks (s : List Char) : List Char :=
  s.map (fun c => if c = '\r' ∨ c = '\n' then '\t' else c)

/-- The sanitiser as amended: every carriage return is dropped, every line feed
becomes one tab, every other character is kept. -/
def dropCRTabLF : List Char → List Char
  | [] => []
  | c :: rest =>
    if c = '\r' then dropCRTabLF rest
    else if c = '\n' then '\t' :: dropCRTabLF rest
    else c :: dropCRTabLF rest

/-- The line format of the specification:
`<SEVERITY>: <timestamp> <program> <hostname> <file>:<line>: <body>` with every
line feed removed. -/
def wireFormat (tag time prog host file : List Char) (line : Nat) (body : List Char) :
    List Char :=
  stripNewlines (tag ++ ": ".toList ++ time ++ " ".toList ++ prog ++ " ".toList ++ host
    ++ " ".toList ++ file ++ ":".toList ++ Nat.toDigits 10 line ++ ": ".toList ++ body)

/-- The subscription list a logging call of the given operation walks. -/
def Logger.subscribers (l : Logger) : Op → List String
  | .Log => l.logProviders
  | .Error => l.errorProviders
  | .Fatal => l.fatalProviders
  | .Debug => l.debugProviders

/-- The logging method that invokes the given operation. -/
def logCall : Op → Logger → World → List Char → List Frame → List Value → Effect
  | .Log => Log
  | .Error => Error
  | .Fatal => Fatal
  | .Debug => Debug

/-- One call of `makeMessage`: the process state it reads, the frames of its
callers, and its two arguments. -/
structure FormatCall where
  W : World
  stack : List Frame
  typeLog : List Char
  err : List Value

/-- A sequence of `makeMessage` calls, first call first, threading the
package variable `HOST` from each call to the next. -/
def makeMessages (HOST : List Char) : List FormatCall → List Made
  | [] => []
  | c :: rest =>
    let m := makeMessage c.W HOST c.stack c.typeLog c.err
    m :: makeMessages m.HOST rest

/-- The providers invoked by the events and the operation invoked on each, in
order, without the messages. -/
def invoked (events : List Event) : List (Provider × Op) :=
  (receives events).map (fun e => (e.1, e.2.1))

/-! ## Example data -/

/-- A provider reporting the ID `a`. -/
def provA : Provider := { name := 1, id := "a" }

/-- A provider reporting the ID `b`. -/
def provB : Provider := { name := 2, id := "b" }

/-- A dispatcher with `provA` and `provB` registered, both subscribed to every
severity (`b` first for log and fatal), at level `LEVEL_DEBUG`. -/
def exampleLogger : Logger :=
  { providers := fun k => if k = "b" then some provB else if k = "a" then some provA else none
    logProviders := ["b", "a"]
    errorProviders := ["a", "b"]
    fatalProviders := ["b", "a"]
    debugProviders := ["a"]
    level := 2 }

/-- The value of `fmt.Sprintf` at the one point the examples use. -/
def exampleSprintf (format : List Char) (params : List Value) : List Char :=
  if format = "code=%d".toList ∧ params = [Value.int 42] then "code=42".toList else []

/-- A process `app` on the host `box` at a fixed time. -/
def exampleWorld : World :=
  { now := "2024-01-02T03:04:05Z".toList
    prog := "app".toList
    hostname := "box".toList
    sprintf := exampleSprintf }

/-- A call site outside the package. -/
def exampleSite : Frame := { file := "main.go".toList, line := 10 }

/-- The provider `provA` is registered, starts to report the ID `b`, and is
subscribed to log under its key `a`. -/
def danglingSetup : List Action :=
  [.RegisterProvider provA, .ChangeID 1 "b", .AddLogProvider ["a"]]

/-- The dispatcher after `danglingSetup`: its log list holds `b`, which is not
a registry key. -/
def danglingLogger : Logger :=
  (ChangeID (RegisterProvider NewLogger provA) 1 "b").set .logProviders ["b"]

/-- A configuration without `SetLevel`: two providers, subscribed to every
severity. -/
def exampleSetup : List Action :=
  [.RegisterProvider provA, .RegisterProvider provB, .AddErrorProvider ["a", "b"],
   .AddFatalProvider ["b", "a", "b"], .AddLogProvider ["a"], .AddDebugProvider ["b"]]

/-- A dispatcher with the single provider `provA`, subscribed to fatal only. -/
def fatalOnlyLogger : Logger :=
  { providers := fun k => if k = "a" then some provA else none
    logProviders := []
    errorProviders := []
    fatalProviders := ["a"]
    debugProviders := []
    level := 0 }

/-- A provider reporting the ID `c`, which `exampleSetup` does not register. -/
def provC : Provider := { name := 4, id := "c" }

/-- A second provider object reporting the ID `a`. -/
def provA2 : Provider := { name := 3, id := "a" }

/-- The process of `exampleWorld` with a host name resolver that fails:
`os.Hostname()` returns the empty string. -/
def namelessWorld : World :=
  { now := "2024-01-02T03:04:05Z".toList
    prog := "app".toList
    hostname := []
    sprintf := exampleSprintf }

/-- A `makeMessage` call as `Log("up")` at `main.go:10` makes it, in
`namelessWorld`. -/
def namelessCall : FormatCall :=
  { W := namelessWorld
    stack := [here 115, exampleSite]
    typeLog := "LOG".toList
    err := [Value.str "up".toList] }

/-! ## Lemmas on the subscription loop -/

theorem alreadyRegistred_iff (id : String) (ids : List String) :
    alreadyRegistred id ids = true ↔ id ∈ ids := by
  induction ids with
  | nil => simp [alreadyRegistred]
  | cons val rest ih =>
    by_cases h : val = id
    · simp [alreadyRegistred, h]
    · have h2 : ¬ id = val := fun e => h e.symm
      simp [alreadyRegistred, h, h2, ih]

theorem addLoop_nodup (providers : String → Option Provider) (ids IDs : List String)
    (h : IDs.Nodup) : (addLoop providers IDs ids).Nodup := by
  induction ids generalizing IDs with
  | nil => simpa [addLoop] using h
  | cons id rest ih =>
    cases hp : providers id with
    | none => simpa [addLoop, hp] using ih IDs h
    | some provider =>
      by_cases hin : provider.id ∈ IDs
      · have := (alreadyRegistred_iff provider.id IDs).2 hin
        simpa [addLoop, hp, this] using ih IDs h
      · have hf : alreadyRegistred provider.id IDs = false := by
          cases hb : alreadyRegistred provider.id IDs with
          | false => rfl
          | true => exact absurd ((alreadyRegistred_iff _ _).1 hb) hin
        have hnd : (IDs ++ [provider.id]).Nodup := by
          rw [List.nodup_append]
          refine ⟨h, List.nodup_singleton _, ?_⟩
          intro x hx hx2
          rw [List.mem_singleton] at hx2
          subst hx2
          exact hin hx
        simpa [addLoop, hp, hf] using ih _ hnd

theorem firstOccurrences_filter (q : String → Bool) (xs : List String) :
    firstOccurrences (xs.filter q) = (firstOccurrences xs).filter q := by
  induction xs with
  | nil => rfl
  | cons x xs ih =>
    by_cases hq : q x = true
    · simp only [List.filter_cons_of_pos hq, firstOccurrences, ih, List.filter_filter]
      congr 1
      apply List.filter_congr
      intro y _
      exact Bool.and_comm _ _
    · simp only [List.filter_cons_of_neg hq, firstOccurrences, ih, List.filter_filter]
      apply List.filter_congr
      intro y _
      by_cases hy : y = x
      · subst hy
        simp [hq]
      · simp [hy]

theorem mem_firstOccurrences (x : String) (xs : List String) :
    x ∈ firstOccurrences xs ↔ x ∈ xs := by
  induction xs with
  | nil => simp [firstOccurrences]
  | cons y ys ih =>
    by_cases h : x = y
    · simp [firstOccurrences, h]
    · simp [firstOccurrences, h, ih]

theorem firstOccurrences_nodup (xs : List String) : (firstOccurrences xs).Nodup := by
  induction xs with
  | nil => simp [firstOccurrences]
  | cons y ys ih =>
    simp only [firstOccurrences, List.nodup_cons]
    exact ⟨by simp [List.mem_filter], ih.filter _⟩

theorem addLoop_eq (providers : String → Option Provider)
    (hst : ∀ k p, providers k = some p → p.id = k) (ids IDs : List String) :
    addLoop providers IDs ids = IDs ++ newSubscribers providers IDs ids := by
  induction ids generalizing IDs with
  | nil => simp [addLoop, newSubscribers, firstOccurrences]
  | cons id rest ih =>
    cases hp : providers id with
    | none =>
      have := ih IDs
      simp only [newSubscribers] at this ⊢
      simp [addLoop, hp, this]
    | some provider =>
      have hid : provider.id = id := hst id provider hp
      by_cases hin : id ∈ IDs
      · have hr := (alreadyRegistred_iff id IDs).2 hin
        have := ih IDs
        simp only [newSubscribers] at this ⊢
        simp [addLoop, hp, hid, hr, hin, this]
      · have hf : alreadyRegistred id IDs = false := by
          cases hb : alreadyRegistred id IDs with
          | false => rfl
          | true => exact absurd ((alreadyRegistred_iff _ _).1 hb) hin
        have := ih (IDs ++ [id])
        simp only [newSubscribers] at this ⊢
        have hfil : List.filter (fun k => (providers k).isSome && decide (k ∉ IDs ++ [id])) rest
            = List.filter (fun y => y != id)
                (List.filter (fun k => (providers k).isSome && decide (k ∉ IDs)) rest) := by
          rw [List.filter_filter]
          apply List.filter_congr
          intro y _
          by_cases hy : y = id
          · simp [hy]
          · by_cases hy2 : y ∈ IDs <;> simp [hy, hy2]
        have hcons : List.filter (fun k => (providers k).isSome && decide (k ∉ IDs)) (id :: rest)
            = id :: List.filter (fun k => (providers k).isSome && decide (k ∉ IDs)) rest :=
          List.filter_cons_of_pos (by simp [hp, hin])
        rw [hcons]
        simp only [firstOccurrences]
        rw [← firstOccurrences_filter, ← hfil]
        simp [addLoop, hp, hid, hf, this]

theorem Logger.get_set (l : Logger) (f : Field) (v : List String) : (l.set f v).get f = v := by
  cases f <;> rfl

theorem Logger.set_get (l : Logger) (f : Field) : l.set f (l.get f) = l := by
  cases f <;> rfl

theorem AddProviderOf_eq (l : Logger) (f : Field) (ids : List String) :
    AddProviderOf f l ids = .ok (l.set f (addLoop l.providers (l.get f) ids)) := by
  cases f <;> rfl

theorem Logger.get_set_ne (l : Logger) (f g : Field) (v : List String) (h : f ≠ g) :
    (l.set g v).get f = l.get f := by
  cases f <;> cases g <;> first | rfl | exact absurd rfl h

theorem Logger.providers_set (l : Logger) (f : Field) (v : List String) :
    (l.set f v).providers = l.providers := by
  cases f <;> rfl

theorem Logger.level_set (l : Logger) (f : Field) (v : List String) :
    (l.set f v).level = l.level := by
  cases f <;> rfl

theorem danglingLogger_arises : run NewLogger danglingSetup = .ok danglingLogger := rfl

/-- Every step other than a subscription leaves the four lists alone, and a subscription rewrites its target list by the loop of
`addProvider`. -/
theorem step_get (l : Logger) (a : Action) :
    ∃ l2, step l a = .ok l2 ∧
      ∀ f, l2.get f = l.get f ∨ ∃ ids, l2.get f = addLoop l.providers (l.get f) ids := by
  cases a with
  | RegisterProvider p => exact ⟨_, rfl, fun f => Or.inl (by cases f <;> rfl)⟩
  | SetLevel level => exact ⟨_, rfl, fun f => Or.inl (by cases f <;> rfl)⟩
  | ChangeID name id => exact ⟨_, rfl, fun f => Or.inl (by cases f <;> rfl)⟩
  | AddLogProvider ids =>
    refine ⟨_, AddProviderOf_eq l .logProviders ids, fun f => ?_⟩
    by_cases h : f = .logProviders
    · subst h; exact Or.inr ⟨ids, Logger.get_set _ _ _⟩
    · exact Or.inl (Logger.get_set_ne _ _ _ _ h)
  | AddErrorProvider ids =>
    refine ⟨_, AddProviderOf_eq l .errorProviders ids, fun f => ?_⟩
    by_cases h : f = .errorProviders
    · subst h; exact Or.inr ⟨ids, Logger.get_set _ _ _⟩
    · exact Or.inl (Logger.get_set_ne _ _ _ _ h)
  | AddFatalProvider ids =>
    refine ⟨_, AddProviderOf_eq l .fatalProviders ids, fun f => ?_⟩
    by_cases h : f = .fatalProviders
    · subst h; exact Or.inr ⟨ids, Logger.get_set _ _ _⟩
    · exact Or.inl (Logger.get_set_ne _ _ _ _ h)
  | AddDebugProvider ids =>
    refine ⟨_, AddProviderOf_eq l .debugProviders ids, fun f => ?_⟩
    by_cases h : f = .debugProviders
    · subst h; exact Or.inr ⟨ids, Logger.get_set _ _ _⟩
    · exact Or.inl (Logger.get_set_ne _ _ _ _ h)

/-- Duplicate-freedom of the four lists is kept by every sequence of steps,
from any state, whatever the registered providers report. -/
theorem run_nodup (acts : List Action) (l : Logger) (h : ∀ f, (l.get f).Nodup) :
    ∃ l2, run l acts = .ok l2 ∧ ∀ f, (l2.get f).Nodup := by
  induction acts generalizing l with
  | nil => exact ⟨l, rfl, h⟩
  | cons a rest ih =>
    obtain ⟨l1, h1, hget⟩ := step_get l a
    have hnd : ∀ f, (l1.get f).Nodup := by
      intro f
      rcases hget f with e | ⟨ids, e⟩
      · rw [e]; exact h f
      · rw [e]; exact addLoop_nodup _ _ _ (h f)
    obtain ⟨l2, h2, hnd2⟩ := ih l1 hnd
    exact ⟨l2, by simp [run, h1, h2], hnd2⟩

/-! ## Lemmas on dispatch -/

theorem receives_append (xs ys : List Event) :
    receives (xs ++ ys) = receives xs ++ receives ys := by
  induction xs with
  | nil => rfl
  | cons e rest ih => cases e <;> simp [receives, ih]

theorem receives_dispatch (providers : String → Option Provider) (op : Op) (msg : List Char)
    (ids : List String) :
    receives (dispatch providers op msg ids)
      = (ids.filterMap providers).map (fun p => (p, op, msg)) := by
  induction ids with
  | nil => rfl
  | cons pID rest ih =>
    cases hp : providers pID with
    | none => simp [dispatch, hp, ih]
    | some p => simp [dispatch, hp, receives, ih]

theorem receives_makeMessage (W : World) (HOST : List Char) (stack : List Frame)
    (typeLog : List Char) (err : List Value) :
    receives (makeMessage W HOST stack typeLog err).events = [] := by
  unfold makeMessage
  by_cases h : HOST.length = 0 <;> simp [h, receives]

theorem receives_Log (l : Logger) (W : World) (HOST : List Char) (callers : List Frame)
    (parts : List Value) (h : LEVEL_INFO ≤ l.level) :
    receives (Log l W HOST callers parts).events
      = (l.logProviders.filterMap l.providers).map (fun p =>
          (p, Op.Log, (makeMessage W HOST (here 115 :: callers) "LOG".toList parts).msg)) := by
  have hg : ¬ l.level < LEVEL_INFO := not_lt.mpr h
  simp only [Log, hg, if_false, receives_append, receives_makeMessage, receives_dispatch,
    List.nil_append]

theorem receives_Error (l : Logger) (W : World) (HOST : List Char) (callers : List Frame)
    (parts : List Value) :
    receives (Error l W HOST callers parts).events
      = (l.errorProviders.filterMap l.providers).map (fun p =>
          (p, Op.Error, (makeMessage W HOST (here 130 :: callers) "ERROR".toList parts).msg)) := by
  simp only [Error, receives_append, receives_makeMessage, receives_dispatch, List.nil_append]

theorem receives_Debug (l : Logger) (W : World) (HOST : List Char) (callers : List Frame)
    (parts : List Value) (h : LEVEL_DEBUG ≤ l.level) :
    receives (Debug l W HOST callers parts).events
      = (l.debugProviders.filterMap l.providers).map (fun p =>
          (p, Op.Debug, (makeMessage W HOST (here 152 :: callers) "DEBUG".toList parts).msg)) := by
  have hg : ¬ l.level < LEVEL_DEBUG := not_lt.mpr h
  simp only [Debug, hg, if_false, receives_append, receives_makeMessage, receives_dispatch,
    List.nil_append]

theorem receives_Fatal (l : Logger) (W : World) (HOST : List Char) (callers : List Frame)
    (parts : List Value) :
    receives (Fatal l W HOST callers parts).events
      = (l.fatalProviders.filterMap l.providers).map (fun p =>
          (p, Op.Fatal, (makeMessage W HOST (here 166 :: callers) "FATAL".toList parts).msg)) := by
  simp only [Fatal, receives_append, receives_makeMessage, receives_dispatch, List.nil_append,
    List.append_nil, receives]

theorem Log_gated (l : Logger) (W : World) (HOST : List Char) (callers : List Frame)
    (parts : List Value) (h : l.level < LEVEL_INFO) :
    Log l W HOST callers parts = { HOST := HOST, events := [] } := by
  simp only [Log, h, if_true]

theorem Debug_gated (l : Logger) (W : World) (HOST : List Char) (callers : List Frame)
    (parts : List Value) (h : l.level < LEVEL_DEBUG) :
    Debug l W HOST callers parts = { HOST := HOST, events := [] } := by
  simp only [Debug, h, if_true]

/-! ## Dispatch order -/

/-- C1: an ungated logging call invokes the matching receive operation of the
registered providers named by the subscription list of its severity, in the
order of the list, once per entry, each with the one message `makeMessage`
returned, and invokes nothing else. -/
theorem dispatch_follows_subscription_list (l : Logger) (W : World) (HOST : List Char)
    (callers : List Frame) (parts : List Value) :
    (LEVEL_INFO ≤ l.level →
      receives (Log l W HOST callers parts).events
        = (l.logProviders.filterMap l.providers).map (fun p =>
            (p, Op.Log, (makeMessage W HOST (here 115 :: callers) "LOG".toList parts).msg)))
    ∧ receives (Error l W HOST callers parts).events
        = (l.errorProviders.filterMap l.providers).map (fun p =>
            (p, Op.Error, (makeMessage W HOST (here 130 :: callers) "ERROR".toList parts).msg))
    ∧ (LEVEL_DEBUG ≤ l.level →
      receives (Debug l W HOST callers parts).events
        = (l.debugProviders.filterMap l.providers).map (fun p =>
            (p, Op.Debug, (makeMessage W HOST (here 152 :: callers) "DEBUG".toList parts).msg)))
    ∧ receives (Fatal l W HOST callers parts).events
        = (l.fatalProviders.filterMap l.providers).map (fun p =>
            (p, Op.Fatal, (makeMessage W HOST (here 166 :: callers) "FATAL".toList parts).msg)) := by
  exact ⟨receives_Log l W HOST callers parts, receives_Error l W HOST callers parts,
    receives_Debug l W HOST callers parts, receives_Fatal l W HOST callers parts⟩

theorem dispatch_follows_subscription_list_witness :
    LEVEL_INFO ≤ exampleLogger.level ∧ LEVEL_DEBUG ≤ exampleLogger.level ∧
    receives (Log exampleLogger exampleWorld [] [exampleSite] [Value.str "up".toList]).events
      = [(provB, Op.Log, "LOG: 2024-01-02T03:04:05Z app box main.go:10: up".toList),
         (provA, Op.Log, "LOG: 2024-01-02T03:04:05Z app box main.go:10: up".toList)] ∧
    receives (Debug exampleLogger exampleWorld [] [exampleSite] [Value.str "up".toList]).events
      = [(provA, Op.Debug, "DEBUG: 2024-01-02T03:04:05Z app box main.go:10: up".toList)] :=
  ⟨by decide, by decide,
   ((dispatch_follows_subscription_list exampleLogger exampleWorld [] [exampleSite]
      [Value.str "up".toList]).1 (by decide)).trans (by decide),
   ((dispatch_follows_subscription_list exampleLogger exampleWorld [] [exampleSite]
      [Value.str "up".toList]).2.2.1 (by decide)).trans (by decide)⟩

/-! ## The subscription lists -/

/-- C2: after any sequence of `RegisterProvider`, `SetLevel` and `Add*Provider`
calls on a new dispatcher, even with providers that change the ID they report
in between (the sequence always runs to its end), none of the four
subscription lists contains an ID twice. -/
theorem subscription_lists_have_no_duplicates (acts : List Action) :
    ∃ l, run NewLogger acts = .ok l ∧ l.logProviders.Nodup ∧ l.errorProviders.Nodup ∧
      l.fatalProviders.Nodup ∧ l.debugProviders.Nodup := by
  obtain ⟨l, hl, hnd⟩ := run_nodup acts NewLogger (by intro f; cases f <;> exact List.nodup_nil)
  exact ⟨l, hl, hnd .logProviders, hnd .errorProviders, hnd .fatalProviders,
    hnd .debugProviders⟩

/-- Why the statements on reachable states ask that no provider changes the ID
it reports: in the state `danglingLogger`, reached through such a change, the
ID `b` is in the log list without being a registry key, and subscribing it
before registering it ends in the same state as registering it before
subscribing it. -/
theorem unregistered_id_already_subscribed :
    run NewLogger danglingSetup = .ok danglingLogger ∧
    danglingLogger.providers provB.id = none ∧
    AddLogProvider danglingLogger [provB.id] = .ok danglingLogger ∧
    provB.id ∈ danglingLogger.logProviders ∧
    subscribeThenRegister .logProviders danglingLogger provB
      = registerThenSubscribe .logProviders danglingLogger provB :=
  ⟨rfl, rfl, rfl, by decide, rfl⟩

/-- In any state, subscribing an ID that is not a registry key leaves the whole
dispatcher state unchanged; once a provider reporting that ID is registered
the same call puts the ID in the target list; and the two orders end in
different states whenever the ID was not in the target list beforehand. -/
theorem subscription_requires_registration (l : Logger) (f : Field) (p : Provider)
    (hk : l.providers p.id = none) :
    AddProviderOf f l [p.id] = .ok l ∧
    (∃ l2, AddProviderOf f (RegisterProvider l p) [p.id] = .ok l2 ∧ p.id ∈ l2.get f) ∧
    (p.id ∉ l.get f →
      subscribeThenRegister f l p ≠ registerThenSubscribe f l p) := by
  have h1 : AddProviderOf f l [p.id] = .ok l := by
    rw [AddProviderOf_eq]
    simp [addLoop, hk, Logger.set_get]
  have hreg : (RegisterProvider l p).providers p.id = some p := by
    simp [RegisterProvider]
  have hget : (RegisterProvider l p).get f = l.get f := by cases f <;> rfl
  refine ⟨h1, ⟨_, AddProviderOf_eq _ _ _, ?_⟩, ?_⟩
  · rw [Logger.get_set, hget]
    by_cases hin : p.id ∈ l.get f
    · have := (alreadyRegistred_iff p.id (l.get f)).2 hin
      simpa [addLoop, hreg, this] using hin
    · have hf : alreadyRegistred p.id (l.get f) = false := by
        cases hb : alreadyRegistred p.id (l.get f) with
        | false => rfl
        | true => exact absurd ((alreadyRegistred_iff _ _).1 hb) hin
      simp [addLoop, hreg, hf]
  · intro hin heq
    have hf : alreadyRegistred p.id (l.get f) = false := by
      cases hb : alreadyRegistred p.id (l.get f) with
      | false => rfl
      | true => exact absurd ((alreadyRegistred_iff _ _).1 hb) hin
    simp only [subscribeThenRegister, registerThenSubscribe, h1, Except.map,
      AddProviderOf_eq, Except.ok.injEq] at heq
    have h2 := congrArg (fun s => s.get f) heq
    simp only [Logger.get_set, hget, addLoop, hreg, hf] at h2
    have h3 := congrArg List.length h2
    simp at h3

theorem exampleLogger_stable : StableIDs exampleLogger := by
  intro k p h
  by_cases hb : k = "b"
  · subst hb
    have : some provB = some p := h
    cases this; rfl
  · by_cases ha : k = "a"
    · subst ha
      have : some provA = some p := h
      cases this; rfl
    · simp [exampleLogger, hb, ha] at h

/-- C4: when every registered provider reports the ID it is registered under,
`Add<Severity>Provider(ids...)` replaces the target list by the old list
followed by `newSubscribers`: the elements of `ids` that are registry keys and
were not in the old list, each once, in the order of their first occurrence in
`ids`; the old list is a prefix of the new one. -/
theorem add_appends_new_subscribers (l : Logger) (hst : StableIDs l) (f : Field)
    (ids : List String) :
    AddProviderOf f l ids
      = .ok (l.set f (l.get f ++ newSubscribers l.providers (l.get f) ids)) ∧
    (newSubscribers l.providers (l.get f) ids).Nodup ∧
    (∀ x, x ∈ newSubscribers l.providers (l.get f) ids
      ↔ x ∈ ids ∧ (∃ p, l.providers x = some p) ∧ x ∉ l.get f) ∧
    (∀ l2, AddProviderOf f l ids = .ok l2 → l.get f <+: l2.get f) := by
  have heq : AddProviderOf f l ids
      = .ok (l.set f (l.get f ++ newSubscribers l.providers (l.get f) ids)) := by
    rw [AddProviderOf_eq, addLoop_eq l.providers hst]
  refine ⟨heq, firstOccurrences_nodup _, fun x => ?_, fun l2 h2 => ?_⟩
  · simp only [newSubscribers, mem_firstOccurrences, List.mem_filter, Bool.and_eq_true,
      decide_eq_true_eq, Option.isSome_iff_exists]
  · rw [heq] at h2
    cases h2
    rw [Logger.get_set]
    exact List.prefix_append _ _

theorem add_appends_new_subscribers_witness :
    StableIDs exampleLogger ∧
    AddProviderOf .debugProviders exampleLogger ["b", "x", "a", "b"]
      = .ok (exampleLogger.set .debugProviders
          (exampleLogger.get .debugProviders
            ++ newSubscribers exampleLogger.providers (exampleLogger.get .debugProviders)
                ["b", "x", "a", "b"])) ∧
    exampleLogger.get .debugProviders
      ++ newSubscribers exampleLogger.providers (exampleLogger.get .debugProviders)
          ["b", "x", "a", "b"] = ["a", "b"] :=
  ⟨exampleLogger_stable,
   (add_appends_new_subscribers exampleLogger exampleLogger_stable .debugProviders
      ["b", "x", "a", "b"]).1,
   by decide⟩

/-! ## Reachable states -/

theorem addLoop_mem (providers : String → Option Provider) (ids IDs : List String) (x : String)
    (h : x ∈ addLoop providers IDs ids) :
    x ∈ IDs ∨ ∃ k p, k ∈ ids ∧ providers k = some p ∧ p.id = x := by
  induction ids generalizing IDs with
  | nil => exact Or.inl (by simpa [addLoop] using h)
  | cons id rest ih =>
    have lift : (x ∈ IDs ∨ ∃ k p, k ∈ rest ∧ providers k = some p ∧ p.id = x) →
        (x ∈ IDs ∨ ∃ k p, k ∈ id :: rest ∧ providers k = some p ∧ p.id = x) := by
      rintro (h1 | ⟨k, p, hk, hp, hx⟩)
      · exact Or.inl h1
      · exact Or.inr ⟨k, p, List.mem_cons_of_mem _ hk, hp, hx⟩
    cases hp : providers id with
    | none =>
      simp only [addLoop, hp] at h
      exact lift (ih IDs h)
    | some provider =>
      simp only [addLoop, hp] at h
      by_cases hr : alreadyRegistred provider.id IDs = true
      · simp only [hr, Bool.not_true, Bool.false_eq_true, if_false] at h
        exact lift (ih IDs h)
      · have hf : alreadyRegistred provider.id IDs = false := by
          cases hb : alreadyRegistred provider.id IDs with
          | false => rfl
          | true => exact absurd hb hr
        simp only [hf, Bool.not_false, if_true] at h
        rcases ih _ h with h1 | ⟨k, p, hk, hp2, hx⟩
        · rcases List.mem_append.1 h1 with h2 | h2
          · exact Or.inl h2
          · rw [List.mem_singleton] at h2
            exact Or.inr ⟨id, provider, List.mem_cons_self _ _, hp, h2.symm⟩
        · exact Or.inr ⟨k, p, List.mem_cons_of_mem _ hk, hp2, hx⟩

/-- The four shapes of a step. -/
theorem step_cases (l : Logger) (a : Action) :
    (∃ p, a = .RegisterProvider p ∧ step l a = .ok (RegisterProvider l p)) ∨
    (∃ level, a = .SetLevel level ∧ step l a = .ok (SetLevel l level)) ∨
    (∃ name id, a = .ChangeID name id ∧ step l a = .ok (ChangeID l name id)) ∨
    (∃ f ids, a.isSetLevel = false ∧ a.isChangeID = false ∧
      step l a = .ok (l.set f (addLoop l.providers (l.get f) ids))) := by
  cases a with
  | RegisterProvider p => exact Or.inl ⟨p, rfl, rfl⟩
  | SetLevel level => exact Or.inr (Or.inl ⟨level, rfl, rfl⟩)
  | ChangeID name id => exact Or.inr (Or.inr (Or.inl ⟨name, id, rfl, rfl⟩))
  | AddLogProvider ids => exact Or.inr (Or.inr (Or.inr ⟨.logProviders, ids, rfl, rfl, rfl⟩))
  | AddErrorProvider ids =>
    exact Or.inr (Or.inr (Or.inr ⟨.errorProviders, ids, rfl, rfl, rfl⟩))
  | AddFatalProvider ids =>
    exact Or.inr (Or.inr (Or.inr ⟨.fatalProviders, ids, rfl, rfl, rfl⟩))
  | AddDebugProvider ids =>
    exact Or.inr (Or.inr (Or.inr ⟨.debugProviders, ids, rfl, rfl, rfl⟩))

theorem step_invariant (l : Logger) (a : Action) :
    ∃ l2, step l a = .ok l2 ∧
      (a.isSetLevel = false → l2.level = l.level) ∧
      (a.isChangeID = false → StableIDs l → SubscribersRegistered l →
        StableIDs l2 ∧ SubscribersRegistered l2) := by
  rcases step_cases l a with ⟨p, ha, h⟩ | ⟨level, ha, h⟩ | ⟨name, id, ha, h⟩ | ⟨f, ids, _, _, h⟩
  · refine ⟨_, h, fun _ => rfl, fun _ hst hreg => ⟨?_, ?_⟩⟩
    · intro k q hq
      by_cases hk : k = p.id
      · simp only [RegisterProvider, hk, if_true, Option.some.injEq] at hq
        rw [hk, ← hq]
      · simp only [RegisterProvider, hk, if_false] at hq
        exact hst k q hq
    · intro f id hid
      have hid2 : id ∈ l.get f := by cases f <;> exact hid
      obtain ⟨q, hq⟩ := hreg f id hid2
      by_cases hk : id = p.id
      · exact ⟨p, by simp [RegisterProvider, hk]⟩
      · exact ⟨q, by simp [RegisterProvider, hk, hq]⟩
  · refine ⟨_, h, fun hs => ?_, fun _ hst hreg => ⟨hst, ?_⟩⟩
    · rw [ha] at hs
      exact absurd hs (by simp [Action.isSetLevel])
    · intro f id hid
      have hid2 : id ∈ l.get f := by cases f <;> exact hid
      exact hreg f id hid2
  · refine ⟨_, h, fun _ => rfl, fun hc => ?_⟩
    rw [ha] at hc
    exact absurd hc (by simp [Action.isChangeID])
  · refine ⟨_, h, fun _ => Logger.level_set _ _ _, fun _ hst hreg => ⟨?_, ?_⟩⟩
    · intro k q hq
      rw [Logger.providers_set] at hq
      exact hst k q hq
    · intro g id hid
      rw [Logger.providers_set]
      by_cases hg : g = f
      · subst hg
        rw [Logger.get_set] at hid
        rcases addLoop_mem _ _ _ _ hid with h1 | ⟨k, q, _, hq, hx⟩
        · exact hreg g id h1
        · have := hst k q hq
          rw [hx] at this
          exact ⟨q, by rw [this]; exact hq⟩
      · rw [Logger.get_set_ne _ _ _ _ hg] at hid
        exact hreg g id hid

/-- Every sequence of steps runs to its end.  Without `SetLevel` it keeps the
level; while no provider changes the ID it reports it keeps the registered
providers filed under the IDs they report and the subscription lists within
the registry keys. -/
theorem run_invariant (acts : List Action) (l : Logger) :
    ∃ l2, run l acts = .ok l2 ∧
      ((∀ a ∈ acts, a.isSetLevel = false) → l2.level = l.level) ∧
      ((∀ a ∈ acts, a.isChangeID = false) → StableIDs l → SubscribersRegistered l →
        StableIDs l2 ∧ SubscribersRegistered l2) := by
  induction acts generalizing l with
  | nil => exact ⟨l, rfl, fun _ => rfl, fun _ hst hreg => ⟨hst, hreg⟩⟩
  | cons a rest ih =>
    obtain ⟨l1, h1, hlev1, hinv1⟩ := step_invariant l a
    obtain ⟨l2, h2, hlev2, hinv2⟩ := ih l1
    refine ⟨l2, by simp [run, h1, h2], fun hno => ?_, fun hno hst hreg => ?_⟩
    · rw [hlev2 (fun b hb => hno b (List.mem_cons_of_mem _ hb)),
        hlev1 (hno a (List.mem_cons_self _ _))]
    · obtain ⟨hst1, hreg1⟩ := hinv1 (hno a (List.mem_cons_self _ _)) hst hreg
      exact hinv2 (fun b hb => hno b (List.mem_cons_of_mem _ hb)) hst1 hreg1

theorem NewLogger_stable : StableIDs NewLogger := by
  intro k p h
  cases h

theorem NewLogger_registered : SubscribersRegistered NewLogger := by
  intro f id hid
  cases f <;> cases hid

theorem mem_receives_of_subscribed (providers : String → Option Provider) (ids : List String)
    (op : Op) (msg : List Char) (evs : List Event)
    (hev : receives evs = (ids.filterMap providers).map (fun p => (p, op, msg))) :
    ∀ id ∈ ids, ∀ p, providers id = some p → (p, op, msg) ∈ receives evs := by
  intro id hid p hp
  rw [hev]
  exact List.mem_map.2 ⟨p, List.mem_filterMap.2 ⟨id, hid, hp⟩, rfl⟩

/-! ## The level gate -/

/-- C5: on a dispatcher made by `NewLogger()` and configured without `SetLevel`
the level is `LEVEL_ERROR`; `Log` and `Debug` cause no event at all, while
`Error` and `Fatal` invoke the matching operation of every provider registered
under an ID of their subscription list; and while no provider changes the ID
it reports, every ID of the four lists has such a provider. -/
theorem default_level_gates_log_and_debug (acts : List Action)
    (hno : ∀ a ∈ acts, a.isSetLevel = false) (W : World) (HOST : List Char)
    (callers : List Frame) (parts : List Value) :
    ∃ l, run NewLogger acts = .ok l ∧ l.level = LEVEL_ERROR ∧
      Log l W HOST callers parts = { HOST := HOST, events := [] } ∧
      Debug l W HOST callers parts = { HOST := HOST, events := [] } ∧
      (∀ id ∈ l.errorProviders, ∀ p, l.providers id = some p →
        (p, Op.Error, (makeMessage W HOST (here 130 :: callers) "ERROR".toList parts).msg)
          ∈ receives (Error l W HOST callers parts).events) ∧
      (∀ id ∈ l.fatalProviders, ∀ p, l.providers id = some p →
        (p, Op.Fatal, (makeMessage W HOST (here 166 :: callers) "FATAL".toList parts).msg)
          ∈ receives (Fatal l W HOST callers parts).events) ∧
      ((∀ a ∈ acts, a.isChangeID = false) → SubscribersRegistered l) := by
  obtain ⟨l, hrun, hlev, hinv⟩ := run_invariant acts NewLogger
  have hl : l.level = LEVEL_ERROR := hlev hno
  refine ⟨l, hrun, hl, ?_, ?_, ?_, ?_, fun hc => ?_⟩
  · exact Log_gated l W HOST callers parts (by rw [hl]; decide)
  · exact Debug_gated l W HOST callers parts (by rw [hl]; decide)
  · exact mem_receives_of_subscribed l.providers l.errorProviders _ _ _
      (receives_Error l W HOST callers parts)
  · exact mem_receives_of_subscribed l.providers l.fatalProviders _ _ _
      (receives_Fatal l W HOST callers parts)
  · exact (hinv hc NewLogger_stable NewLogger_registered).2

theorem default_level_gates_log_and_debug_witness :
    (∀ a ∈ exampleSetup, a.isSetLevel = false) ∧
    ∃ l, run NewLogger exampleSetup = .ok l ∧ l.level = LEVEL_ERROR ∧
      Log l exampleWorld [] [exampleSite] [Value.str "up".toList]
        = { HOST := [], events := [] } ∧
      Debug l exampleWorld [] [exampleSite] [Value.str "up".toList]
        = { HOST := [], events := [] } ∧
      (∀ id ∈ l.errorProviders, ∀ p, l.providers id = some p →
        (p, Op.Error, (makeMessage exampleWorld [] (here 130 :: [exampleSite]) "ERROR".toList
            [Value.str "up".toList]).msg)
          ∈ receives (Error l exampleWorld [] [exampleSite] [Value.str "up".toList]).events) ∧
      (∀ id ∈ l.fatalProviders, ∀ p, l.providers id = some p →
        (p, Op.Fatal, (makeMessage exampleWorld [] (here 166 :: [exampleSite]) "FATAL".toList
            [Value.str "up".toList]).msg)
          ∈ receives (Fatal l exampleWorld [] [exampleSite] [Value.str "up".toList]).events) ∧
      ((∀ a ∈ exampleSetup, a.isChangeID = false) → SubscribersRegistered l) :=
  ⟨by decide,
   default_level_gates_log_and_debug exampleSetup (by decide) exampleWorld [] [exampleSite]
     [Value.str "up".toList]⟩

theorem exampleSetup_lists :
    (run NewLogger exampleSetup).toOption.map
        (fun l => (l.logProviders, l.errorProviders, l.fatalProviders, l.debugProviders))
      = some (["a"], ["a", "b"], ["b", "a"], ["b"]) := by
  decide

/-- C6: for every integer `L` given to `SetLevel`, `Log` invokes its
subscribers when `L ≥ 1` and causes no event otherwise, `Debug` invokes its
subscribers when `L ≥ 2` and causes no event otherwise, `Error` and `Fatal`
do not depend on `L`, and every call behaves at `L` as at `L` brought into the
range from `LEVEL_ERROR` to `LEVEL_DEBUG`. -/
theorem level_gate (l : Logger) (L : Int) (W : World) (HOST : List Char)
    (callers : List Frame) (parts : List Value) :
    (receives (Log (SetLevel l L) W HOST callers parts).events
      = if 1 ≤ L then (l.logProviders.filterMap l.providers).map (fun p =>
          (p, Op.Log, (makeMessage W HOST (here 115 :: callers) "LOG".toList parts).msg))
        else []) ∧
    (¬ 1 ≤ L → Log (SetLevel l L) W HOST callers parts = { HOST := HOST, events := [] }) ∧
    (l.logProviders.filterMap l.providers ≠ [] →
      (receives (Log (SetLevel l L) W HOST callers parts).events ≠ [] ↔ 1 ≤ L)) ∧
    (receives (Debug (SetLevel l L) W HOST callers parts).events
      = if 2 ≤ L then (l.debugProviders.filterMap l.providers).map (fun p =>
          (p, Op.Debug, (makeMessage W HOST (here 152 :: callers) "DEBUG".toList parts).msg))
        else []) ∧
    (¬ 2 ≤ L → Debug (SetLevel l L) W HOST callers parts = { HOST := HOST, events := [] }) ∧
    (l.debugProviders.filterMap l.providers ≠ [] →
      (receives (Debug (SetLevel l L) W HOST callers parts).events ≠ [] ↔ 2 ≤ L)) ∧
    (Error (SetLevel l L) W HOST callers parts = Error l W HOST callers parts ∧
      receives (Error (SetLevel l L) W HOST callers parts).events
        = (l.errorProviders.filterMap l.providers).map (fun p =>
            (p, Op.Error, (makeMessage W HOST (here 130 :: callers) "ERROR".toList parts).msg))) ∧
    (Fatal (SetLevel l L) W HOST callers parts = Fatal l W HOST callers parts ∧
      receives (Fatal (SetLevel l L) W HOST callers parts).events
        = (l.fatalProviders.filterMap l.providers).map (fun p =>
            (p, Op.Fatal, (makeMessage W HOST (here 166 :: callers) "FATAL".toList parts).msg))) ∧
    (Log (SetLevel l L) W HOST callers parts
        = Log (SetLevel l (clampLevel L)) W HOST callers parts ∧
      Debug (SetLevel l L) W HOST callers parts
        = Debug (SetLevel l (clampLevel L)) W HOST callers parts ∧
      Error (SetLevel l L) W HOST callers parts
        = Error (SetLevel l (clampLevel L)) W HOST callers parts ∧
      Fatal (SetLevel l L) W HOST callers parts
        = Fatal (SetLevel l (clampLevel L)) W HOST callers parts) ∧
    (L < 0 → clampLevel L = LEVEL_ERROR) ∧ (2 < L → clampLevel L = LEVEL_DEBUG) := by
  have hlog : receives (Log (SetLevel l L) W HOST callers parts).events
      = if 1 ≤ L then (l.logProviders.filterMap l.providers).map (fun p =>
          (p, Op.Log, (makeMessage W HOST (here 115 :: callers) "LOG".toList parts).msg))
        else [] := by
    by_cases h : 1 ≤ L
    · rw [if_pos h]
      exact receives_Log (SetLevel l L) W HOST callers parts h
    · rw [if_neg h, Log_gated (SetLevel l L) W HOST callers parts (not_le.mp h)]
      rfl
  have hdbg : receives (Debug (SetLevel l L) W HOST callers parts).events
      = if 2 ≤ L then (l.debugProviders.filterMap l.providers).map (fun p =>
          (p, Op.Debug, (makeMessage W HOST (here 152 :: callers) "DEBUG".toList parts).msg))
        else [] := by
    by_cases h : 2 ≤ L
    · rw [if_pos h]
      exact receives_Debug (SetLevel l L) W HOST callers parts h
    · rw [if_neg h, Debug_gated (SetLevel l L) W HOST callers parts (not_le.mp h)]
      rfl
  have hclampLog : ((SetLevel l (clampLevel L)).level < LEVEL_INFO) ↔
      ((SetLevel l L).level < LEVEL_INFO) := by
    simp only [SetLevel, clampLevel, LEVEL_INFO, LEVEL_ERROR, LEVEL_DEBUG]
    omega
  have hclampDbg : ((SetLevel l (clampLevel L)).level < LEVEL_DEBUG) ↔
      ((SetLevel l L).level < LEVEL_DEBUG) := by
    simp only [SetLevel, clampLevel, LEVEL_INFO, LEVEL_ERROR, LEVEL_DEBUG]
    omega
  refine ⟨hlog, fun h => Log_gated _ W HOST callers parts (not_le.mp h), fun hne => ?_,
    hdbg, fun h => Debug_gated _ W HOST callers parts (not_le.mp h), fun hne => ?_,
    ⟨rfl, receives_Error _ W HOST callers parts⟩, ⟨rfl, receives_Fatal _ W HOST callers parts⟩,
    ⟨?_, ?_, rfl, rfl⟩, ?_, ?_⟩
  · rw [hlog]
    by_cases h : 1 ≤ L
    · simp [h, hne]
    · simp [h]
  · rw [hdbg]
    by_cases h : 2 ≤ L
    · simp [h, hne]
    · simp [h]
  · by_cases h : (SetLevel l L).level < LEVEL_INFO
    · rw [Log_gated _ W HOST callers parts h,
        Log_gated _ W HOST callers parts (hclampLog.2 h)]
    · have h2 : ¬ (SetLevel l (clampLevel L)).level < LEVEL_INFO := fun c => h (hclampLog.1 c)
      simp only [Log, h, h2, if_false]
      rfl
  · by_cases h : (SetLevel l L).level < LEVEL_DEBUG
    · rw [Debug_gated _ W HOST callers parts h,
        Debug_gated _ W HOST callers parts (hclampDbg.2 h)]
    · have h2 : ¬ (SetLevel l (clampLevel L)).level < LEVEL_DEBUG := fun c => h (hclampDbg.1 c)
      simp only [Debug, h, h2, if_false]
      rfl
  · intro h
    simp only [clampLevel, LEVEL_ERROR, LEVEL_DEBUG]
    omega
  · intro h
    simp only [clampLevel, LEVEL_ERROR, LEVEL_DEBUG]
    omega


/-! ## The message formatter -/

theorem MESSAGE_REPLACER_eq (s : List Char) : MESSAGE_REPLACER s = dropCRTabLF s := by
  induction s with
  | nil => rfl
  | cons c rest ih =>
    unfold MESSAGE_REPLACER at ih ⊢
    by_cases hr : c = '\r'
    · subst hr
      simp [NewReplacer, dropCRTabLF, List.lookup, ih]
    · by_cases hn : c = '\n'
      · subst hn
        simp [NewReplacer, dropCRTabLF, List.lookup, ih]
      · have h1 : (c == '\r') = false := by simpa using hr
        have h2 : (c == '\n') = false := by simpa using hn
        simp [NewReplacer, dropCRTabLF, List.lookup, ih, h1, h2, hr, hn]

theorem writeParts_later (msg : List Char) (i : Nat) (parts : List Value) :
    writeParts msg (i + 1) parts
      = msg ++ (parts.map (fun v => MESSAGE_SEPARATOR ++ Fprint v)).flatten := by
  induction parts generalizing msg i with
  | nil => simp [writeParts]
  | cons v rest ih => simp [writeParts, ih]

theorem writeParts_eq (parts : List Value) : writeParts [] 0 parts = spaceJoined parts := by
  cases parts with
  | nil => rfl
  | cons v rest =>
    simp only [writeParts, gt_iff_lt, lt_self_iff_false, if_false, List.nil_append, zero_add,
      writeParts_later, spaceJoined, List.map_cons]
    induction rest generalizing v with
    | nil => simp [List.intercalate]
    | cons w rest ih =>
      have := ih w
      simp only [List.intercalate, List.map_cons, List.intersperse, List.flatten] at this ⊢
      simp [MESSAGE_SEPARATOR] at this ⊢
      exact this

theorem stripNewlines_append (xs ys : List Char) :
    stripNewlines (xs ++ ys) = stripNewlines xs ++ stripNewlines ys := by
  simp [stripNewlines]

theorem stripNewlines_Output (pfx : List Char) (stack : List Frame) (site : Frame)
    (calldepth : Nat) (s : List Char) (h : Caller stack calldepth = some site) :
    stripNewlines (Output pfx stack calldepth s)
      = stripNewlines (pfx ++ site.file ++ ":".toList ++ Nat.toDigits 10 site.line
          ++ ": ".toList ++ s) := by
  have e1 : ":".toList = [':'] := rfl
  have e2 : ": ".toList = [':', ' '] := rfl
  unfold Output
  simp only [h, Option.getD_some, e1, e2]
  rw [stripNewlines_append _ (if s.getLast? = some '\n' then [] else ['\n'])]
  have : stripNewlines (if s.getLast? = some '\n' then [] else ['\n']) = [] := by
    by_cases hl : s.getLast? = some '\n' <;> simp [hl, stripNewlines]
  rw [this, List.append_nil]

/-- The message `makeMessage` returns when `site` is the frame two above it
(the caller of its caller). -/
theorem makeMessage_msg (W : World) (HOST : List Char) (inner site : Frame)
    (rest : List Frame) (typeLog : List Char) (err : List Value) :
    (makeMessage W HOST (inner :: site :: rest) typeLog err).msg
      = wireFormat typeLog W.now W.prog (if HOST.length = 0 then W.hostname else HOST)
          site.file site.line (MESSAGE_REPLACER (writeParts [] 0 err)) := by
  have hc : Caller (here 201 :: inner :: site :: rest) 3 = some site := rfl
  simp only [makeMessage, wireFormat]
  rw [stripNewlines_Output _ _ site 3 _ hc]

theorem makeMessage_HOST (W : World) (HOST : List Char) (stack : List Frame)
    (typeLog : List Char) (err : List Value) :
    (makeMessage W HOST stack typeLog err).HOST
      = if HOST.length = 0 then W.hostname else HOST := rfl

theorem stripNewlines_no_newline (b : List Char) : '\n' ∉ stripNewlines b := by
  intro h
  have := (List.mem_filter.1 h).2
  simp at this

/-- C7, as stated, fails: the body for the single part `a\rb` is `ab`, not
`a\tb`; the carriage return is dropped. -/
theorem carriage_return_is_dropped :
    MESSAGE_REPLACER (writeParts [] 0 [Value.str "a\rb".toList]) = "ab".toList ∧
    tabForLineBreaks (spaceJoined [Value.str "a\rb".toList]) = "a\tb".toList ∧
    MESSAGE_REPLACER (writeParts [] 0 [Value.str "a\rb".toList])
      ≠ tabForLineBreaks (spaceJoined [Value.str "a\rb".toList]) ∧
    (makeMessage exampleWorld [] [here 115, exampleSite] "LOG".toList
        [Value.str "a\rb".toList]).msg
      = "LOG: 2024-01-02T03:04:05Z app box main.go:10: ab".toList := by
  decide

/-- C7, amended: the body `makeMessage` puts in the message is the
space-joined parts with every carriage return removed and every line feed
replaced by one tab, all other characters unchanged. -/
theorem body_is_sanitised (W : World) (HOST : List Char) (stack : List Frame)
    (typeLog : List Char) (err : List Value) :
    MESSAGE_REPLACER (writeParts [] 0 err) = dropCRTabLF (spaceJoined err) ∧
    (makeMessage W HOST stack typeLog err).msg
      = stripNewlines (Output
          (typeLog ++ ": ".toList ++ W.now ++ " ".toList ++ W.prog ++ " ".toList
            ++ (makeMessage W HOST stack typeLog err).HOST ++ " ".toList)
          (here 201 :: stack) 3 (dropCRTabLF (spaceJoined err))) := by
  have h : MESSAGE_REPLACER (writeParts [] 0 err) = dropCRTabLF (spaceJoined err) := by
    rw [MESSAGE_REPLACER_eq, writeParts_eq]
  refine ⟨h, ?_⟩
  rw [← h]
  rfl

/-- C8: the bytes `makeMessage` returns contain no line feed, whatever the
tag, the parts, the time, the host name, the program name and the call site;
in particular they do not end in one. -/
theorem message_has_no_newline (W : World) (HOST : List Char) (stack : List Frame)
    (typeLog : List Char) (err : List Value) :
    '\n' ∉ (makeMessage W HOST stack typeLog err).msg ∧
    (makeMessage W HOST stack typeLog err).msg.getLast? ≠ some '\n' := by
  have h : '\n' ∉ (makeMessage W HOST stack typeLog err).msg := stripNewlines_no_newline _
  refine ⟨h, fun hl => h ?_⟩
  exact List.mem_of_getLast?_eq_some hl

theorem mem_receives_Log (l : Logger) (W : World) (HOST : List Char) (callers : List Frame)
    (parts : List Value) (e : Provider × Op × List Char)
    (h : e ∈ receives (Log l W HOST callers parts).events) :
    e.2 = (Op.Log, (makeMessage W HOST (here 115 :: callers) "LOG".toList parts).msg) := by
  by_cases hg : l.level < LEVEL_INFO
  · rw [Log_gated l W HOST callers parts hg] at h
    cases h
  · rw [receives_Log l W HOST callers parts (not_lt.mp hg)] at h
    obtain ⟨p, _, hp⟩ := List.mem_map.1 h
    rw [← hp]

theorem mem_receives_Error (l : Logger) (W : World) (HOST : List Char) (callers : List Frame)
    (parts : List Value) (e : Provider × Op × List Char)
    (h : e ∈ receives (Error l W HOST callers parts).events) :
    e.2 = (Op.Error, (makeMessage W HOST (here 130 :: callers) "ERROR".toList parts).msg) := by
  rw [receives_Error l W HOST callers parts] at h
  obtain ⟨p, _, hp⟩ := List.mem_map.1 h
  rw [← hp]

theorem mem_receives_Debug (l : Logger) (W : World) (HOST : List Char) (callers : List Frame)
    (parts : List Value) (e : Provider × Op × List Char)
    (h : e ∈ receives (Debug l W HOST callers parts).events) :
    e.2 = (Op.Debug, (makeMessage W HOST (here 152 :: callers) "DEBUG".toList parts).msg) := by
  by_cases hg : l.level < LEVEL_DEBUG
  · rw [Debug_gated l W HOST callers parts hg] at h
    cases h
  · rw [receives_Debug l W HOST callers parts (not_lt.mp hg)] at h
    obtain ⟨p, _, hp⟩ := List.mem_map.1 h
    rw [← hp]

theorem mem_receives_Fatal (l : Logger) (W : World) (HOST : List Char) (callers : List Frame)
    (parts : List Value) (e : Provider × Op × List Char)
    (h : e ∈ receives (Fatal l W HOST callers parts).events) :
    e.2 = (Op.Fatal, (makeMessage W HOST (here 166 :: callers) "FATAL".toList parts).msg) := by
  rw [receives_Fatal l W HOST callers parts] at h
  obtain ⟨p, _, hp⟩ := List.mem_map.1 h
  rw [← hp]

/-- C9: when `site` is the caller of the function that calls `makeMessage`,
the returned bytes are the tag, `: `, the timestamp, the program name and the
host name separated by single spaces, a space, `file:line: ` of `site` and the
sanitised body, with every line feed removed; and every message that `Log`,
`Error`, `Debug` and `Fatal` hand to a provider has this form for their own
call site, with the tags `LOG`, `ERROR`, `DEBUG` and `FATAL`. -/
theorem message_follows_wire_format (l : Logger) (W : World) (HOST : List Char)
    (inner site : Frame) (rest : List Frame) (typeLog : List Char) (parts : List Value) :
    (makeMessage W HOST (inner :: site :: rest) typeLog parts).msg
      = wireFormat typeLog W.now W.prog (if HOST.length = 0 then W.hostname else HOST)
          site.file site.line (MESSAGE_REPLACER (writeParts [] 0 parts)) ∧
    (∀ e ∈ receives (Log l W HOST (site :: rest) parts).events,
      e.2 = (Op.Log, wireFormat "LOG".toList W.now W.prog
        (if HOST.length = 0 then W.hostname else HOST) site.file site.line
        (MESSAGE_REPLACER (writeParts [] 0 parts)))) ∧
    (∀ e ∈ receives (Error l W HOST (site :: rest) parts).events,
      e.2 = (Op.Error, wireFormat "ERROR".toList W.now W.prog
        (if HOST.length = 0 then W.hostname else HOST) site.file site.line
        (MESSAGE_REPLACER (writeParts [] 0 parts)))) ∧
    (∀ e ∈ receives (Debug l W HOST (site :: rest) parts).events,
      e.2 = (Op.Debug, wireFormat "DEBUG".toList W.now W.prog
        (if HOST.length = 0 then W.hostname else HOST) site.file site.line
        (MESSAGE_REPLACER (writeParts [] 0 parts)))) ∧
    (∀ e ∈ receives (Fatal l W HOST (site :: rest) parts).events,
      e.2 = (Op.Fatal, wireFormat "FATAL".toList W.now W.prog
        (if HOST.length = 0 then W.hostname else HOST) site.file site.line
        (MESSAGE_REPLACER (writeParts [] 0 parts)))) := by
  refine ⟨makeMessage_msg W HOST inner site rest typeLog parts, fun e h => ?_, fun e h => ?_,
    fun e h => ?_, fun e h => ?_⟩
  · rw [mem_receives_Log l W HOST _ parts e h, makeMessage_msg]
  · rw [mem_receives_Error l W HOST _ parts e h, makeMessage_msg]
  · rw [mem_receives_Debug l W HOST _ parts e h, makeMessage_msg]
  · rw [mem_receives_Fatal l W HOST _ parts e h, makeMessage_msg]

/-! ## The format-string variant of `Fatal` -/

/-- Whatever the caller, the messages `Fatalf` hands out carry the position
`logger.go:162`, the line of `Fatalf` that calls `Fatal`. -/
theorem receives_Fatalf (l : Logger) (W : World) (HOST : List Char) (callers : List Frame)
    (format : List Char) (params : List Value) :
    receives (Fatalf l W HOST callers format params).events
      = (l.fatalProviders.filterMap l.providers).map (fun p =>
          (p, Op.Fatal, wireFormat "FATAL".toList W.now W.prog
            (if HOST.length = 0 then W.hostname else HOST) "logger.go".toList 162
            (MESSAGE_REPLACER (W.sprintf format params)))) := by
  unfold Fatalf
  rw [receives_Fatal, makeMessage_msg]
  rfl

/-- C10: `Fatalf("code=%d", 42)` called from `main.go:10` hands the one fatal
subscriber a message annotated `logger.go:162`, while `Fatal("code=42")`
called from the same place hands it a message annotated `main.go:10`; the two
byte sequences differ. -/
theorem Fatalf_annotates_its_own_line :
    receives (Fatalf fatalOnlyLogger exampleWorld [] [exampleSite] "code=%d".toList
        [Value.int 42]).events
      = [(provA, Op.Fatal,
          "FATAL: 2024-01-02T03:04:05Z app box logger.go:162: code=42".toList)] ∧
    exampleWorld.sprintf "code=%d".toList [Value.int 42] = "code=42".toList ∧
    receives (Fatal fatalOnlyLogger exampleWorld [] [exampleSite]
        [Value.str "code=42".toList]).events
      = [(provA, Op.Fatal,
          "FATAL: 2024-01-02T03:04:05Z app box main.go:10: code=42".toList)] ∧
    receives (Fatalf fatalOnlyLogger exampleWorld [] [exampleSite] "code=%d".toList
        [Value.int 42]).events
      ≠ receives (Fatal fatalOnlyLogger exampleWorld [] [exampleSite]
        [Value.str "code=42".toList]).events := by
  decide

/-! ## Re-registration -/

theorem dispatch_append (providers : String → Option Provider) (op : Op) (msg : List Char)
    (xs ys : List String) :
    dispatch providers op msg (xs ++ ys)
      = dispatch providers op msg xs ++ dispatch providers op msg ys := by
  induction xs with
  | nil => rfl
  | cons x rest ih =>
    cases hp : providers x with
    | none => simp [dispatch, hp, ih]
    | some p => simp [dispatch, hp, ih]

theorem mem_receives_dispatch (providers : String → Option Provider) (op : Op)
    (msg : List Char) (ids : List String) (e : Provider × Op × List Char)
    (h : e ∈ receives (dispatch providers op msg ids)) :
    ∃ id ∈ ids, providers id = some e.1 := by
  rw [receives_dispatch] at h
  obtain ⟨p, hp, he⟩ := List.mem_map.1 h
  obtain ⟨id, hid, hpid⟩ := List.mem_filterMap.1 hp
  exact ⟨id, hid, by rw [← he]; exact hpid⟩

/-- Every provider a logging call invokes is registered under an ID of the
subscription list of that call. -/
theorem mem_receives_logCall (op : Op) (s : Logger) (W : World) (HOST : List Char)
    (callers : List Frame) (parts : List Value) (e : Provider × Op × List Char)
    (h : e ∈ receives (logCall op s W HOST callers parts).events) :
    ∃ id ∈ s.subscribers op, s.providers id = some e.1 := by
  cases op with
  | Log =>
    by_cases hg : s.level < LEVEL_INFO
    · rw [show logCall Op.Log = Log from rfl, Log_gated s W HOST callers parts hg] at h
      cases h
    · have hg2 : ¬ s.level < LEVEL_INFO := hg
      simp only [logCall, Log, hg2, if_false, receives_append, receives_makeMessage,
        List.nil_append] at h
      exact mem_receives_dispatch _ _ _ _ e h
  | Debug =>
    by_cases hg : s.level < LEVEL_DEBUG
    · rw [show logCall Op.Debug = Debug from rfl, Debug_gated s W HOST callers parts hg] at h
      cases h
    · have hg2 : ¬ s.level < LEVEL_DEBUG := hg
      simp only [logCall, Debug, hg2, if_false, receives_append, receives_makeMessage,
        List.nil_append] at h
      exact mem_receives_dispatch _ _ _ _ e h
  | Error =>
    simp only [logCall, Error, receives_append, receives_makeMessage, List.nil_append] at h
    exact mem_receives_dispatch _ _ _ _ e h
  | Fatal =>
    simp only [logCall, Fatal, receives_append, receives_makeMessage, List.nil_append,
      receives, List.append_nil] at h
    exact mem_receives_dispatch _ _ _ _ e h

theorem RegisterProvider_providers_self (l : Logger) (p : Provider) :
    (RegisterProvider l p).providers p.id = some p := by
  simp [RegisterProvider]

theorem RegisterProvider_get (l : Logger) (p : Provider) (f : Field) :
    (RegisterProvider l p).get f = l.get f := by
  cases f <;> rfl

theorem mem_addLoop_of_mem (providers : String → Option Provider) (ids IDs : List String)
    (x : String) (h : x ∈ IDs) : x ∈ addLoop providers IDs ids := by
  induction ids generalizing IDs with
  | nil => simpa [addLoop] using h
  | cons id rest ih =>
    cases hp : providers id with
    | none => simpa [addLoop, hp] using ih IDs h
    | some provider =>
      simp only [addLoop, hp]
      split
      · exact ih _ (List.mem_append_left _ h)
      · exact ih _ h

/-- After the loop of `addProvider` the ID reported by every provider found for
an argument is in the list. -/
theorem addLoop_covers (providers : String → Option Provider) (ids IDs : List String)
    (k : String) (p : Provider) (hk : k ∈ ids) (hp : providers k = some p) :
    p.id ∈ addLoop providers IDs ids := by
  induction ids generalizing IDs with
  | nil => cases hk
  | cons id rest ih =>
    rcases List.mem_cons.1 hk with e | hrest
    · subst e
      simp only [addLoop, hp]
      by_cases hr : alreadyRegistred p.id IDs = true
      · simp only [hr, Bool.not_true, Bool.false_eq_true, if_false]
        exact mem_addLoop_of_mem _ _ _ _ ((alreadyRegistred_iff _ _).1 hr)
      · have hf : alreadyRegistred p.id IDs = false := by
          cases hb : alreadyRegistred p.id IDs with
          | false => rfl
          | true => exact absurd hb hr
        simp only [hf, Bool.not_false, if_true]
        exact mem_addLoop_of_mem _ _ _ _ (List.mem_append_right _ (List.mem_singleton.2 rfl))
    · cases hq : providers id with
      | none => simpa [addLoop, hq] using ih IDs hrest
      | some q =>
        simp only [addLoop, hq]
        split
        · exact ih _ hrest
        · exact ih _ hrest

/-- C11: after `RegisterProvider(p1)` and `RegisterProvider(p2)` with both
providers reporting the same ID, the registry maps that ID to `p2`, whether
the ID is subscribed after the second registration or was subscribed before
it; wherever the registry maps the ID to `p2`, an entry with that ID makes a
dispatch invoke `p2` exactly once at the place of the entry, and `p1` is
invoked by a logging call only if it is also registered under another ID of
the subscription list, which cannot be when every registered provider reports
the ID it is registered under. -/
theorem reregistration_replaces_provider (l : Logger) (p1 p2 : Provider)
    (h : p1.id = p2.id) :
    (RegisterProvider (RegisterProvider l p1) p2).providers p2.id = some p2 ∧
    (∀ f, ∃ s, AddProviderOf f (RegisterProvider (RegisterProvider l p1) p2) [p2.id] = .ok s ∧
      p2.id ∈ s.get f ∧ s.providers p2.id = some p2) ∧
    (∀ f, ∃ s, AddProviderOf f (RegisterProvider l p1) [p1.id] = .ok s ∧
      p2.id ∈ (RegisterProvider s p2).get f ∧
      (RegisterProvider s p2).providers p2.id = some p2) ∧
    (∀ s : Logger, s.providers p2.id = some p2 → ∀ op m pre post,
      dispatch s.providers op m (pre ++ p2.id :: post)
        = dispatch s.providers op m pre
          ++ Event.receive p2 op m :: dispatch s.providers op m post) ∧
    (p1 ≠ p2 → ∀ s : Logger, s.providers p2.id = some p2 →
      ∀ op W HOST callers parts e,
        e ∈ receives (logCall op s W HOST callers parts).events → e.1 = p1 →
        ∃ k ∈ s.subscribers op, k ≠ p2.id ∧ s.providers k = some p1) ∧
    (p1 ≠ p2 → ∀ s : Logger, s.providers p2.id = some p2 → StableIDs s →
      ∀ op W HOST callers parts e,
        e ∈ receives (logCall op s W HOST callers parts).events → e.1 ≠ p1) := by
  have only_elsewhere : p1 ≠ p2 → ∀ s : Logger, s.providers p2.id = some p2 →
      ∀ op W HOST callers parts e,
        e ∈ receives (logCall op s W HOST callers parts).events → e.1 = p1 →
        ∃ k ∈ s.subscribers op, k ≠ p2.id ∧ s.providers k = some p1 := by
    intro hne s hs op W HOST callers parts e he he1
    obtain ⟨k, hk, hp⟩ := mem_receives_logCall op s W HOST callers parts e he
    refine ⟨k, hk, ?_, by rw [← he1]; exact hp⟩
    intro hkk
    rw [hkk, hs, he1] at hp
    exact hne (Option.some.inj hp).symm
  refine ⟨RegisterProvider_providers_self _ _, fun f => ?_, fun f => ?_, ?_, only_elsewhere, ?_⟩
  · refine ⟨_, AddProviderOf_eq _ _ _, ?_, ?_⟩
    · rw [Logger.get_set]
      exact addLoop_covers _ _ _ p2.id p2 (List.mem_singleton.2 rfl)
        (RegisterProvider_providers_self _ _)
    · rw [Logger.providers_set]
      exact RegisterProvider_providers_self _ _
  · refine ⟨_, AddProviderOf_eq _ _ _, ?_, RegisterProvider_providers_self _ _⟩
    rw [RegisterProvider_get, Logger.get_set, ← h]
    exact addLoop_covers _ _ _ p1.id p1 (List.mem_singleton.2 rfl)
      (RegisterProvider_providers_self _ _)
  · intro s hs op m pre post
    rw [dispatch_append]
    simp [dispatch, hs]
  · intro hne s hs hst op W HOST callers parts e he he1
    obtain ⟨k, _, hk, hp⟩ := only_elsewhere hne s hs op W HOST callers parts e he he1
    exact hk ((hst k p1 hp).symm.trans h)

theorem reregistration_replaces_provider_witness :
    provA.id = provA2.id ∧
    (RegisterProvider (RegisterProvider NewLogger provA) provA2).providers provA2.id
      = some provA2 ∧
    (∀ s : Logger, s.providers provA2.id = some provA2 → ∀ op m pre post,
      dispatch s.providers op m (pre ++ provA2.id :: post)
        = dispatch s.providers op m pre
          ++ Event.receive provA2 op m :: dispatch s.providers op m post) ∧
    receives (Error
        ((RegisterProvider (RegisterProvider NewLogger provA) provA2).set .errorProviders ["a"])
        exampleWorld [] [exampleSite] [Value.str "up".toList]).events
      = [(provA2, Op.Error, "ERROR: 2024-01-02T03:04:05Z app box main.go:10: up".toList)] :=
  ⟨rfl, (reregistration_replaces_provider NewLogger provA provA2 rfl).1,
   (reregistration_replaces_provider NewLogger provA provA2 rfl).2.2.2.1,
   by decide⟩

/-! ## Fatal -/

/-- C12: at every level `Fatal` and `Fatalf` first invoke the Fatal operation
of the registered providers named by the fatal list, in the order of the list,
and then end the process with exit status 1; the exit is the last event and
the only exit, also when the fatal list is empty. -/
theorem fatal_dispatches_then_exits (l : Logger) (W : World) (HOST : List Char)
    (callers : List Frame) (parts : List Value) (format : List Char) (params : List Value) :
    (∃ before, (Fatal l W HOST callers parts).events = before ++ [Event.exit 1] ∧
      (∀ code, Event.exit code ∉ before) ∧
      receives before = (l.fatalProviders.filterMap l.providers).map (fun p =>
        (p, Op.Fatal, (makeMessage W HOST (here 166 :: callers) "FATAL".toList parts).msg))) ∧
    (∃ before, (Fatalf l W HOST callers format params).events = before ++ [Event.exit 1] ∧
      (∀ code, Event.exit code ∉ before) ∧
      receives before = (l.fatalProviders.filterMap l.providers).map (fun p =>
        (p, Op.Fatal, (makeMessage W HOST (here 166 :: here 162 :: callers) "FATAL".toList
          [Value.str (W.sprintf format params)]).msg))) ∧
    (l.fatalProviders = [] →
      (Fatal l W HOST callers parts).events.getLast? = some (Event.exit 1) ∧
      receives (Fatal l W HOST callers parts).events = [] ∧
      (Fatalf l W HOST callers format params).events.getLast? = some (Event.exit 1) ∧
      receives (Fatalf l W HOST callers format params).events = []) := by
  have key : ∀ (cs : List Frame) (ps : List Value),
      ∃ before, (Fatal l W HOST cs ps).events = before ++ [Event.exit 1] ∧
        (∀ code, Event.exit code ∉ before) ∧
        receives before = (l.fatalProviders.filterMap l.providers).map (fun p =>
          (p, Op.Fatal, (makeMessage W HOST (here 166 :: cs) "FATAL".toList ps).msg)) := by
    intro cs ps
    refine ⟨(makeMessage W HOST (here 166 :: cs) "FATAL".toList ps).events
      ++ dispatch l.providers Op.Fatal (makeMessage W HOST (here 166 :: cs) "FATAL".toList ps).msg
          l.fatalProviders, rfl, ?_, ?_⟩
    · intro code hmem
      rcases List.mem_append.1 hmem with h1 | h2
      · unfold makeMessage at h1
        by_cases hh : HOST.length = 0 <;> simp [hh] at h1
      · have : ∀ ids, Event.exit code ∉ dispatch l.providers Op.Fatal
            (makeMessage W HOST (here 166 :: cs) "FATAL".toList ps).msg ids := by
          intro ids
          induction ids with
          | nil => simp [dispatch]
          | cons id rest ih =>
            cases hp : l.providers id with
            | none => simpa [dispatch, hp] using ih
            | some p => simpa [dispatch, hp] using ih
        exact this _ h2
    · rw [receives_append, receives_makeMessage, receives_dispatch, List.nil_append]
  refine ⟨key callers parts, key (here 162 :: callers) _, fun hempty => ?_⟩
  refine ⟨?_, ?_, ?_, ?_⟩
  · simp [Fatal]
  · rw [receives_Fatal, hempty]; rfl
  · simp [Fatalf, Fatal]
  · unfold Fatalf
    rw [receives_Fatal, hempty]; rfl

/-! ## Subscriptions stay within the registry -/

theorem filterMap_length_of_registered (providers : String → Option Provider)
    (ids : List String) (h : ∀ id ∈ ids, ∃ p, providers id = some p) :
    (ids.filterMap providers).length = ids.length := by
  induction ids with
  | nil => rfl
  | cons id rest ih =>
    obtain ⟨p, hp⟩ := h id (List.mem_cons_self _ _)
    have := ih (fun x hx => h x (List.mem_cons_of_mem _ hx))
    simp [List.filterMap_cons, hp, this]

/-- C13: after any sequence of configuration calls on a new dispatcher during
which no provider changes the ID it reports, every ID of the four subscription
lists is a registry key; so no entry is skipped by a dispatch loop, and an
ungated logging call invokes as many providers as its list has entries. -/
theorem subscribed_ids_are_registered (acts : List Action)
    (hst : ∀ a ∈ acts, a.isChangeID = false) (W : World) (HOST : List Char)
    (callers : List Frame) (parts : List Value) :
    ∃ l, run NewLogger acts = .ok l ∧
      (∀ id ∈ l.logProviders, ∃ p, l.providers id = some p) ∧
      (∀ id ∈ l.errorProviders, ∃ p, l.providers id = some p) ∧
      (∀ id ∈ l.fatalProviders, ∃ p, l.providers id = some p) ∧
      (∀ id ∈ l.debugProviders, ∃ p, l.providers id = some p) ∧
      (LEVEL_INFO ≤ l.level →
        (receives (Log l W HOST callers parts).events).length = l.logProviders.length) ∧
      (receives (Error l W HOST callers parts).events).length = l.errorProviders.length ∧
      (LEVEL_DEBUG ≤ l.level →
        (receives (Debug l W HOST callers parts).events).length = l.debugProviders.length) ∧
      (receives (Fatal l W HOST callers parts).events).length = l.fatalProviders.length := by
  obtain ⟨l, hrun, _, hinv⟩ := run_invariant acts NewLogger
  have hreg : SubscribersRegistered l := (hinv hst NewLogger_stable NewLogger_registered).2
  refine ⟨l, hrun, hreg .logProviders, hreg .errorProviders, hreg .fatalProviders,
    hreg .debugProviders, fun h => ?_, ?_, fun h => ?_, ?_⟩
  · rw [receives_Log l W HOST callers parts h, List.length_map]
    exact filterMap_length_of_registered _ _ (hreg .logProviders)
  · rw [receives_Error l W HOST callers parts, List.length_map]
    exact filterMap_length_of_registered _ _ (hreg .errorProviders)
  · rw [receives_Debug l W HOST callers parts h, List.length_map]
    exact filterMap_length_of_registered _ _ (hreg .debugProviders)
  · rw [receives_Fatal l W HOST callers parts, List.length_map]
    exact filterMap_length_of_registered _ _ (hreg .fatalProviders)

theorem subscribed_ids_are_registered_witness :
    (∀ a ∈ exampleSetup, a.isChangeID = false) ∧
    ∃ l, run NewLogger exampleSetup = .ok l ∧
      (∀ id ∈ l.logProviders, ∃ p, l.providers id = some p) ∧
      (∀ id ∈ l.errorProviders, ∃ p, l.providers id = some p) ∧
      (∀ id ∈ l.fatalProviders, ∃ p, l.providers id = some p) ∧
      (∀ id ∈ l.debugProviders, ∃ p, l.providers id = some p) ∧
      (LEVEL_INFO ≤ l.level →
        (receives (Log l exampleWorld [] [exampleSite] []).events).length
          = l.logProviders.length) ∧
      (receives (Error l exampleWorld [] [exampleSite] []).events).length
        = l.errorProviders.length ∧
      (LEVEL_DEBUG ≤ l.level →
        (receives (Debug l exampleWorld [] [exampleSite] []).events).length
          = l.debugProviders.length) ∧
      (receives (Fatal l exampleWorld [] [exampleSite] []).events).length
        = l.fatalProviders.length :=
  ⟨by decide,
   subscribed_ids_are_registered exampleSetup (by decide) exampleWorld [] [exampleSite] []⟩

/-! ## The unsanitised body -/

/-- C14: the text `makeMessage` builds from the parts before sanitising is
their renderings joined by single spaces: nothing for no part, the rendering
itself for one part, and for two or more parts the rendering of the first, one
space, and the text built from the rest. -/
theorem unsanitised_body_is_space_joined (parts : List Value) :
    writeParts [] 0 parts = List.intercalate [' '] (parts.map Fprint) ∧
    writeParts [] 0 [] = [] ∧
    (∀ p, writeParts [] 0 [p] = Fprint p) ∧
    (∀ p q rest, writeParts [] 0 (p :: q :: rest)
      = Fprint p ++ ' ' :: writeParts [] 0 (q :: rest)) ∧
    (∀ W HOST stack typeLog, (makeMessage W HOST stack typeLog parts).msg
      = stripNewlines (Output
          (typeLog ++ ": ".toList ++ W.now ++ " ".toList ++ W.prog ++ " ".toList
            ++ (makeMessage W HOST stack typeLog parts).HOST ++ " ".toList)
          (here 201 :: stack) 3
          (MESSAGE_REPLACER (List.intercalate [' '] (parts.map Fprint))))) := by
  have h := writeParts_eq parts
  unfold spaceJoined at h
  refine ⟨h, rfl, fun p => ?_, fun p q rest => ?_, fun W HOST stack typeLog => ?_⟩
  · simp [writeParts]
  · simp [writeParts, writeParts_later, MESSAGE_SEPARATOR]
  · rw [← h]
    rfl

/-! ## The host name cache -/

theorem makeMessage_events (W : World) (HOST : List Char) (stack : List Frame)
    (typeLog : List Char) (err : List Value) :
    (makeMessage W HOST stack typeLog err).events
      = if HOST.length = 0 then [Event.hostname] else [] := rfl

/-- Once `HOST` is not empty no call of a sequence resolves the host name and
every call leaves `HOST` as it is. -/
theorem makeMessages_memoized (HOST : List Char) (h : HOST ≠ []) (calls : List FormatCall) :
    ∀ m ∈ makeMessages HOST calls, m.events = [] ∧ m.HOST = HOST := by
  have hlen : ¬ HOST.length = 0 := fun e => h (List.length_eq_zero.1 e)
  induction calls with
  | nil => intro m hm; cases hm
  | cons c rest ih =>
    intro m hm
    have hH : (makeMessage c.W HOST c.stack c.typeLog c.err).HOST = HOST := by
      rw [makeMessage_HOST, if_neg hlen]
    simp only [makeMessages, List.mem_cons] at hm
    rcases hm with e | hrest
    · subst e
      exact ⟨by rw [makeMessage_events, if_neg hlen], hH⟩
    · rw [hH] at hrest
      exact ih m hrest

/-- C15, as stated, fails: when the resolver returns the empty string, the
second `makeMessage` call resolves the host name again. -/
theorem failed_hostname_is_resolved_again :
    (makeMessages [] [namelessCall, namelessCall]).map (fun m => m.events)
      = [[Event.hostname], [Event.hostname]] ∧
    (makeMessages [] [namelessCall, namelessCall]).map (fun m => m.HOST) = [[], []] := by
  decide

/-- C15, amended: a `makeMessage` call resolves the host name exactly when
`HOST` is empty before it, so the first call of a sequence resolves it; once
the resolver has returned a name that is not empty, no later call resolves it
and all of them use that name; when it returns the empty string, nothing is
kept and the next call starts from an empty `HOST` again. -/
theorem hostname_resolved_while_empty (HOST : List Char) (c : FormatCall)
    (rest : List FormatCall) :
    ((makeMessage c.W HOST c.stack c.typeLog c.err).events
      = if HOST.length = 0 then [Event.hostname] else []) ∧
    (makeMessage c.W [] c.stack c.typeLog c.err).events = [Event.hostname] ∧
    makeMessages [] (c :: rest)
      = makeMessage c.W [] c.stack c.typeLog c.err :: makeMessages c.W.hostname rest ∧
    (c.W.hostname ≠ [] →
      ∀ m ∈ makeMessages c.W.hostname rest, m.events = [] ∧ m.HOST = c.W.hostname) ∧
    (HOST ≠ [] → ∀ m ∈ makeMessages HOST (c :: rest), m.events = [] ∧ m.HOST = HOST) ∧
    (c.W.hostname = [] →
      makeMessages [] (c :: rest)
        = makeMessage c.W [] c.stack c.typeLog c.err :: makeMessages [] rest) := by
  refine ⟨rfl, rfl, rfl, fun h => makeMessages_memoized _ h rest,
    fun h => makeMessages_memoized _ h _, fun h => ?_⟩
  have : makeMessages [] (c :: rest)
      = makeMessage c.W [] c.stack c.typeLog c.err :: makeMessages c.W.hostname rest := rfl
  rw [this, h]

/-! ## The format-string variants -/

theorem Logf_eq (l : Logger) (W : World) (HOST : List Char) (callers : List Frame)
    (format : List Char) (params : List Value) :
    Logf l W HOST callers format params
      = Log l W HOST (here 108 :: callers) [Value.str (W.sprintf format params)] := by
  by_cases hg : l.level < LEVEL_INFO
  · rw [Log_gated _ _ _ _ _ hg]
    simp only [Logf, hg, if_true]
  · simp only [Logf, hg, if_false]

theorem Debugf_eq (l : Logger) (W : World) (HOST : List Char) (callers : List Frame)
    (format : List Char) (params : List Value) :
    Debugf l W HOST callers format params
      = Debug l W HOST (here 144 :: callers) [Value.str (W.sprintf format params)] := by
  by_cases hg : l.level < LEVEL_DEBUG
  · rw [Debug_gated _ _ _ _ _ hg]
    simp only [Debugf, hg, if_true]
  · simp only [Debugf, hg, if_false]

theorem dispatch_eq_nil_iff (providers : String → Option Provider) (op : Op) (msg : List Char)
    (ids : List String) :
    dispatch providers op msg ids = [] ↔ ids.filterMap providers = [] := by
  induction ids with
  | nil => simp [dispatch]
  | cons id rest ih =>
    cases hp : providers id with
    | none => simpa [dispatch, hp, List.filterMap_cons] using ih
    | some p => simp [dispatch, hp, List.filterMap_cons]

/-- What `Log` does apart from the message text does not depend on the caller
or on the parts. -/
theorem Log_shape (l : Logger) (W : World) (HOST : List Char) (callers : List Frame)
    (parts : List Value) :
    invoked (Log l W HOST callers parts).events
      = (if l.level < LEVEL_INFO then []
          else (l.logProviders.filterMap l.providers).map (fun p => (p, Op.Log))) ∧
    (Log l W HOST callers parts).HOST
      = (if l.level < LEVEL_INFO then HOST else if HOST.length = 0 then W.hostname else HOST) ∧
    ((Log l W HOST callers parts).events = [] ↔
      (l.level < LEVEL_INFO ∨
        (¬ HOST.length = 0 ∧ l.logProviders.filterMap l.providers = []))) := by
  by_cases hg : l.level < LEVEL_INFO
  · rw [Log_gated _ _ _ _ _ hg]
    simp [hg, invoked, receives]
  · refine ⟨?_, ?_, ?_⟩
    · rw [invoked, receives_Log _ _ _ _ _ (not_lt.mp hg), if_neg hg, List.map_map]
      rfl
    · simp only [Log, hg, if_false, makeMessage_HOST]
    · simp only [Log, hg, if_false, false_or, List.append_eq_nil, makeMessage_events,
        dispatch_eq_nil_iff]
      by_cases hh : HOST.length = 0 <;> simp [hh]

theorem Error_shape (l : Logger) (W : World) (HOST : List Char) (callers : List Frame)
    (parts : List Value) :
    invoked (Error l W HOST callers parts).events
      = (l.errorProviders.filterMap l.providers).map (fun p => (p, Op.Error)) ∧
    (Error l W HOST callers parts).HOST = (if HOST.length = 0 then W.hostname else HOST) := by
  refine ⟨?_, rfl⟩
  rw [invoked, receives_Error, List.map_map]
  rfl

theorem Debug_shape (l : Logger) (W : World) (HOST : List Char) (callers : List Frame)
    (parts : List Value) :
    invoked (Debug l W HOST callers parts).events
      = (if l.level < LEVEL_DEBUG then []
          else (l.debugProviders.filterMap l.providers).map (fun p => (p, Op.Debug))) ∧
    (Debug l W HOST callers parts).HOST
      = (if l.level < LEVEL_DEBUG then HOST else if HOST.length = 0 then W.hostname else HOST) ∧
    ((Debug l W HOST callers parts).events = [] ↔
      (l.level < LEVEL_DEBUG ∨
        (¬ HOST.length = 0 ∧ l.debugProviders.filterMap l.providers = []))) := by
  by_cases hg : l.level < LEVEL_DEBUG
  · rw [Debug_gated _ _ _ _ _ hg]
    simp [hg, invoked, receives]
  · refine ⟨?_, ?_, ?_⟩
    · rw [invoked, receives_Debug _ _ _ _ _ (not_lt.mp hg), if_neg hg, List.map_map]
      rfl
    · simp only [Debug, hg, if_false, makeMessage_HOST]
    · simp only [Debug, hg, if_false, false_or, List.append_eq_nil, makeMessage_events,
        dispatch_eq_nil_iff]
      by_cases hh : HOST.length = 0 <;> simp [hh]

theorem writeParts_single (s : List Char) : writeParts [] 0 [Value.str s] = s := by
  simp [writeParts, Fprint]

/-- C16: `Logf`, `Errorf` and `Debugf` invoke the same providers with the same
operation in the same order as `Log`, `Error` and `Debug` called at the same
place with the rendered format as their single part, leave `HOST` the same,
and hand out messages with the same tag, time, program, host and body, the
body being the sanitised rendering; `Logf` and `Debugf` return at once below
`LEVEL_INFO` and `LEVEL_DEBUG` as `Log` and `Debug` do, and cause no event
exactly when those cause none. -/
theorem format_variants_match_plain_calls (l : Logger) (W : World) (HOST : List Char)
    (site : Frame) (rest : List Frame) (format : List Char) (params : List Value) :
    (invoked (Logf l W HOST (site :: rest) format params).events
        = invoked (Log l W HOST (site :: rest) [Value.str (W.sprintf format params)]).events ∧
      invoked (Errorf l W HOST (site :: rest) format params).events
        = invoked (Error l W HOST (site :: rest) [Value.str (W.sprintf format params)]).events ∧
      invoked (Debugf l W HOST (site :: rest) format params).events
        = invoked (Debug l W HOST (site :: rest)
            [Value.str (W.sprintf format params)]).events) ∧
    ((Logf l W HOST (site :: rest) format params).HOST
        = (Log l W HOST (site :: rest) [Value.str (W.sprintf format params)]).HOST ∧
      (Errorf l W HOST (site :: rest) format params).HOST
        = (Error l W HOST (site :: rest) [Value.str (W.sprintf format params)]).HOST ∧
      (Debugf l W HOST (site :: rest) format params).HOST
        = (Debug l W HOST (site :: rest) [Value.str (W.sprintf format params)]).HOST) ∧
    ((∀ e ∈ receives (Logf l W HOST (site :: rest) format params).events,
        e.2.2 = wireFormat "LOG".toList W.now W.prog
          (if HOST.length = 0 then W.hostname else HOST) "logger.go".toList 108
          (MESSAGE_REPLACER (W.sprintf format params))) ∧
      (∀ e ∈ receives (Log l W HOST (site :: rest)
          [Value.str (W.sprintf format params)]).events,
        e.2.2 = wireFormat "LOG".toList W.now W.prog
          (if HOST.length = 0 then W.hostname else HOST) site.file site.line
          (MESSAGE_REPLACER (W.sprintf format params)))) ∧
    ((∀ e ∈ receives (Errorf l W HOST (site :: rest) format params).events,
        e.2.2 = wireFormat "ERROR".toList W.now W.prog
          (if HOST.length = 0 then W.hostname else HOST) "logger.go".toList 125
          (MESSAGE_REPLACER (W.sprintf format params))) ∧
      (∀ e ∈ receives (Error l W HOST (site :: rest)
          [Value.str (W.sprintf format params)]).events,
        e.2.2 = wireFormat "ERROR".toList W.now W.prog
          (if HOST.length = 0 then W.hostname else HOST) site.file site.line
          (MESSAGE_REPLACER (W.sprintf format params)))) ∧
    ((∀ e ∈ receives (Debugf l W HOST (site :: rest) format params).events,
        e.2.2 = wireFormat "DEBUG".toList W.now W.prog
          (if HOST.length = 0 then W.hostname else HOST) "logger.go".toList 144
          (MESSAGE_REPLACER (W.sprintf format params))) ∧
      (∀ e ∈ receives (Debug l W HOST (site :: rest)
          [Value.str (W.sprintf format params)]).events,
        e.2.2 = wireFormat "DEBUG".toList W.now W.prog
          (if HOST.length = 0 then W.hostname else HOST) site.file site.line
          (MESSAGE_REPLACER (W.sprintf format params)))) ∧
    ((l.level < LEVEL_INFO →
        Logf l W HOST (site :: rest) format params = { HOST := HOST, events := [] } ∧
        Log l W HOST (site :: rest) [Value.str (W.sprintf format params)]
          = { HOST := HOST, events := [] }) ∧
      ((Logf l W HOST (site :: rest) format params).events = [] ↔
        (Log l W HOST (site :: rest) [Value.str (W.sprintf format params)]).events = []) ∧
      ((Logf l W [] (site :: rest) format params).events = [] ↔ l.level < LEVEL_INFO)) ∧
    ((l.level < LEVEL_DEBUG →
        Debugf l W HOST (site :: rest) format params = { HOST := HOST, events := [] } ∧
        Debug l W HOST (site :: rest) [Value.str (W.sprintf format params)]
          = { HOST := HOST, events := [] }) ∧
      ((Debugf l W HOST (site :: rest) format params).events = [] ↔
        (Debug l W HOST (site :: rest) [Value.str (W.sprintf format params)]).events = []) ∧
      ((Debugf l W [] (site :: rest) format params).events = [] ↔ l.level < LEVEL_DEBUG)) := by
  refine ⟨⟨?_, ?_, ?_⟩, ⟨?_, ?_, ?_⟩, ⟨fun e h => ?_, fun e h => ?_⟩,
    ⟨fun e h => ?_, fun e h => ?_⟩, ⟨fun e h => ?_, fun e h => ?_⟩,
    ⟨fun hg => ⟨?_, ?_⟩, ?_, ?_⟩, ⟨fun hg => ⟨?_, ?_⟩, ?_, ?_⟩⟩
  · rw [Logf_eq, (Log_shape l W HOST _ _).1, (Log_shape l W HOST _ _).1]
  · unfold Errorf
    rw [(Error_shape l W HOST _ _).1, (Error_shape l W HOST _ _).1]
  · rw [Debugf_eq, (Debug_shape l W HOST _ _).1, (Debug_shape l W HOST _ _).1]
  · rw [Logf_eq, (Log_shape l W HOST _ _).2.1, (Log_shape l W HOST _ _).2.1]
  · rfl
  · rw [Debugf_eq, (Debug_shape l W HOST _ _).2.1, (Debug_shape l W HOST _ _).2.1]
  · rw [Logf_eq] at h
    rw [mem_receives_Log l W HOST _ _ e h, makeMessage_msg, writeParts_single]
    rfl
  · rw [mem_receives_Log l W HOST _ _ e h, makeMessage_msg, writeParts_single]
  · unfold Errorf at h
    rw [mem_receives_Error l W HOST _ _ e h, makeMessage_msg, writeParts_single]
    rfl
  · rw [mem_receives_Error l W HOST _ _ e h, makeMessage_msg, writeParts_single]
  · rw [Debugf_eq] at h
    rw [mem_receives_Debug l W HOST _ _ e h, makeMessage_msg, writeParts_single]
    rfl
  · rw [mem_receives_Debug l W HOST _ _ e h, makeMessage_msg, writeParts_single]
  · rw [Logf_eq]; exact Log_gated _ _ _ _ _ hg
  · exact Log_gated _ _ _ _ _ hg
  · rw [Logf_eq, (Log_shape l W HOST _ _).2.2, (Log_shape l W HOST _ _).2.2]
  · rw [Logf_eq, (Log_shape l W [] _ _).2.2]
    simp
  · rw [Debugf_eq]; exact Debug_gated _ _ _ _ _ hg
  · exact Debug_gated _ _ _ _ _ hg
  · rw [Debugf_eq, (Debug_shape l W HOST _ _).2.2, (Debug_shape l W HOST _ _).2.2]
  · rw [Debugf_eq, (Debug_shape l W [] _ _).2.2]
    simp

/-! ## The panic of `addProvider` -/

theorem selectField_eq_none_iff (providerType : String) :
    selectField providerType = none ↔ providerType ∉ ["debug", "log", "error", "fatal"] := by
  unfold selectField
  by_cases h1 : providerType = "debug"
  · simp [h1]
  · by_cases h2 : providerType = "log"
    · simp [h2]
    · by_cases h3 : providerType = "error"
      · simp [h3]
      · by_cases h4 : providerType = "fatal"
        · simp [h4]
        · simp [h1, h2, h3, h4]

/-- C17: `addProvider` panics exactly when its type tag is none of `debug`,
`log`, `error` and `fatal`; the panic carries the dispatcher state it was
called in, unchanged; and the four public subscription methods always return
normally. -/
theorem addProvider_panics_iff_unknown_tag (l : Logger) (providerType : String)
    (ids : List String) :
    ((∃ e, addProvider l providerType ids = .error e)
      ↔ providerType ∉ ["debug", "log", "error", "fatal"]) ∧
    (∀ e, addProvider l providerType ids = .error e →
      e.state = l ∧ e.value = "Wrong type of the provider.") ∧
    (∃ s, AddLogProvider l ids = .ok s) ∧ (∃ s, AddErrorProvider l ids = .ok s) ∧
    (∃ s, AddFatalProvider l ids = .ok s) ∧ (∃ s, AddDebugProvider l ids = .ok s) := by
  refine ⟨?_, ?_, ⟨_, AddProviderOf_eq l .logProviders ids⟩,
    ⟨_, AddProviderOf_eq l .errorProviders ids⟩, ⟨_, AddProviderOf_eq l .fatalProviders ids⟩,
    ⟨_, AddProviderOf_eq l .debugProviders ids⟩⟩
  · rw [← selectField_eq_none_iff]
    unfold addProvider
    cases hs : selectField providerType with
    | none => simp
    | some f => simp
  · intro e he
    unfold addProvider at he
    cases hs : selectField providerType with
    | none =>
      rw [hs] at he
      cases he
      exact ⟨rfl, rfl⟩
    | some f =>
      rw [hs] at he
      cases he

/-! ## Frame properties -/

/-- C18: `RegisterProvider(p)` sets the registry entry for the key `p.GetID()`
to `p` and changes nothing else: every other registry entry, the four
subscription lists and the level are as before. -/
theorem RegisterProvider_changes_one_entry (l : Logger) (p : Provider) :
    (RegisterProvider l p).providers p.id = some p ∧
    (∀ k, k ≠ p.id → (RegisterProvider l p).providers k = l.providers k) ∧
    (RegisterProvider l p).logProviders = l.logProviders ∧
    (RegisterProvider l p).errorProviders = l.errorProviders ∧
    (RegisterProvider l p).fatalProviders = l.fatalProviders ∧
    (RegisterProvider l p).debugProviders = l.debugProviders ∧
    (RegisterProvider l p).level = l.level := by
  refine ⟨RegisterProvider_providers_self l p, fun k hk => ?_, rfl, rfl, rfl, rfl, rfl⟩
  simp [RegisterProvider, hk]

/-- C19: a subscription call changes at most its own list: it returns
normally, and the registry, the level and the three other lists are as
before; so `AddLogProvider` leaves the error, fatal and debug lists alone. -/
theorem add_changes_only_its_list (l : Logger) (f : Field) (ids : List String) :
    (∃ s, AddProviderOf f l ids = .ok s ∧ s.providers = l.providers ∧ s.level = l.level ∧
      ∀ g, g ≠ f → s.get g = l.get g) ∧
    (∃ s, AddLogProvider l ids = .ok s ∧ s.errorProviders = l.errorProviders ∧
      s.fatalProviders = l.fatalProviders ∧ s.debugProviders = l.debugProviders ∧
      s.providers = l.providers ∧ s.level = l.level) := by
  refine ⟨⟨_, AddProviderOf_eq l f ids, Logger.providers_set _ _ _, Logger.level_set _ _ _,
    fun g hg => Logger.get_set_ne _ _ _ _ hg⟩,
    ⟨_, AddProviderOf_eq l .logProviders ids, rfl, rfl, rfl, rfl, rfl⟩⟩

/-! ## Idempotence -/

theorem addLoop_fixed (providers : String → Option Provider) (ids IDs : List String)
    (h : ∀ k ∈ ids, ∀ p, providers k = some p → p.id ∈ IDs) :
    addLoop providers IDs ids = IDs := by
  induction ids with
  | nil => rfl
  | cons id rest ih =>
    have hrest := ih (fun k hk => h k (List.mem_cons_of_mem _ hk))
    cases hp : providers id with
    | none => simp [addLoop, hp, hrest]
    | some p =>
      have := (alreadyRegistred_iff p.id IDs).2 (h id (List.mem_cons_self _ _) p hp)
      simp [addLoop, hp, this, hrest]

theorem addLoop_append (providers : String → Option Provider) (xs ys IDs : List String) :
    addLoop providers IDs (xs ++ ys) = addLoop providers (addLoop providers IDs xs) ys := by
  induction xs generalizing IDs with
  | nil => rfl
  | cons x rest ih =>
    cases hp : providers x with
    | none => simp [addLoop, hp, ih]
    | some p =>
      simp only [List.cons_append, addLoop, hp]
      split
      · exact ih _
      · exact ih _

theorem Logger.set_set (l : Logger) (f : Field) (v w : List String) :
    (l.set f v).set f w = l.set f w := by
  cases f <;> rfl

theorem addLoop_idem (providers : String → Option Provider) (ids IDs : List String) :
    addLoop providers (addLoop providers IDs ids) ids = addLoop providers IDs ids :=
  addLoop_fixed providers ids _ (fun k hk p hp => addLoop_covers providers ids IDs k p hk hp)

/-- C20: a subscription call is idempotent, in every dispatcher state: making
it a second time with the same arguments returns the state the first call
returned, and making it once with the arguments repeated returns the same
state as making it once with the arguments. -/
theorem add_is_idempotent (l : Logger) (f : Field) (ids : List String) :
    (∃ s, AddProviderOf f l ids = .ok s ∧ AddProviderOf f s ids = .ok s) ∧
    AddProviderOf f l (ids ++ ids) = AddProviderOf f l ids := by
  refine ⟨⟨_, AddProviderOf_eq l f ids, ?_⟩, ?_⟩
  · rw [AddProviderOf_eq, Logger.providers_set, Logger.get_set, addLoop_idem, Logger.set_set]
  · rw [AddProviderOf_eq, AddProviderOf_eq, addLoop_append, addLoop_idem]

/-! ## Subscription before registration -/

/-- C3: in every state reached from `NewLogger()` while no provider changes the
ID it reports, and for every ID that is not a registry key, each of the four
subscription methods called with that ID returns the state unchanged, so the
target list is as before and the ID is not in it afterwards; when a provider
reporting that ID is registered first, the same call leaves the ID in the
target list; and subscribing before registering ends in another state than
registering before subscribing. -/
theorem unregistered_id_is_dropped (acts : List Action)
    (hst : ∀ a ∈ acts, a.isChangeID = false) :
    ∃ l, run NewLogger acts = .ok l ∧
      ∀ (f : Field) (p : Provider), l.providers p.id = none →
        (∃ l1, AddProviderOf f l [p.id] = .ok l1 ∧ l1 = l ∧ l1.get f = l.get f ∧
          p.id ∉ l1.get f) ∧
        (∃ l2, AddProviderOf f (RegisterProvider l p) [p.id] = .ok l2 ∧ p.id ∈ l2.get f) ∧
        subscribeThenRegister f l p ≠ registerThenSubscribe f l p := by
  obtain ⟨l, hrun, _, hinv⟩ := run_invariant acts NewLogger
  have hreg : SubscribersRegistered l := (hinv hst NewLogger_stable NewLogger_registered).2
  refine ⟨l, hrun, fun f p hk => ?_⟩
  have hnot : p.id ∉ l.get f := by
    intro hin
    obtain ⟨q, hq⟩ := hreg f p.id hin
    rw [hk] at hq
    cases hq
  obtain ⟨h1, h2, h3⟩ := subscription_requires_registration l f p hk
  exact ⟨⟨l, h1, rfl, rfl, hnot⟩, h2, h3 hnot⟩

theorem unregistered_id_is_dropped_witness :
    (∀ a ∈ exampleSetup, a.isChangeID = false) ∧
    (∃ l, run NewLogger exampleSetup = .ok l ∧
      ∀ (f : Field) (p : Provider), l.providers p.id = none →
        (∃ l1, AddProviderOf f l [p.id] = .ok l1 ∧ l1 = l ∧ l1.get f = l.get f ∧
          p.id ∉ l1.get f) ∧
        (∃ l2, AddProviderOf f (RegisterProvider l p) [p.id] = .ok l2 ∧ p.id ∈ l2.get f) ∧
        subscribeThenRegister f l p ≠ registerThenSubscribe f l p) ∧
    (run NewLogger (exampleSetup ++ [.AddLogProvider ["c"], .RegisterProvider provC])).toOption.map
        (fun l => l.logProviders) = some ["a"] ∧
    (run NewLogger (exampleSetup ++ [.RegisterProvider provC, .AddLogProvider ["c"]])).toOption.map
        (fun l => l.logProviders) = some ["a", "c"] :=
  ⟨by decide, unregistered_id_is_dropped exampleSetup (by decide), by decide, by decide⟩

end GoLogger
